import Mathlib

/-!
Verification development for the Fabric digital-twin core
(`dt/state.py`, `dt/cost_model.py`, `dt/policy/greedy.py`, `sim/chaos.py`).

The Python code is shallowly embedded: dictionaries become association
lists over a small dynamic-value type `PyVal`, floats become exact
rationals `ℚ` (the float literal `1e-9` is embedded as `1/10^9`, `1.35`
as `27/20`, and so on), float infinity becomes an explicit constructor,
and operations that can raise in Python return an explicit outcome
together with the (possibly partially mutated) state, mirroring the fact
that `DTState` methods mutate `self` in place before an exception
propagates.

Notes on fidelity kept throughout:
* `safe_float` on a *numeric string* parses in Python; no claim involves
  string-valued numeric fields, and the embedding returns the default
  there (documented at `safeFloat`).
* wall-clock values (`utc_ms`, reservation `ts`) are irrelevant to every
  claim and are omitted from reservation records; `snapshot`'s timestamp
  is modelled by passing the current time as an argument.
-/

namespace Fabric

/-- A Python/JSON-ish dynamic value as stored in the `dyn` dictionaries of
`dt/state.py`.  `resmap` is the reservations dictionary
(`res_id -> {cpu_cores, mem_gb, gpu_vram_gb, ts}`) written only by
`DTState.reserve`; the wall-clock `ts` field is omitted (no claim uses it). -/
structure Resv where
  cpu_cores : ℚ
  mem_gb : ℚ
  gpu_vram_gb : ℚ
deriving DecidableEq, Repr

inductive PyVal where
  | pynone
  | pybool (b : Bool)
  | pynum (q : ℚ)
  | pystr (s : String)
  | resmap (m : List (String × Resv))
deriving DecidableEq, Repr

/-- Python dictionaries are embedded as association lists with unique keys,
in insertion order (the order Python preserves). -/
abbrev Dyn := List (String × PyVal)

/-- `d.get(k)` -/
def aget {α : Type} : List (String × α) → String → Option α
  | [], _ => none
  | (k, v) :: rest, key => if k = key then some v else aget rest key

/-- `d[k] = v`: replace in place if the key exists, else append (Python
dict insertion order). -/
def aset {α : Type} : List (String × α) → String → α → List (String × α)
  | [], k, v => [(k, v)]
  | (k', v') :: rest, k, v =>
      if k' = k then (k, v) :: rest else (k', v') :: aset rest k v

/-- `d.pop(k, None)` / `del d[k]` restricted to its effect on the dict:
remove the entry for `k` if present. -/
def apop {α : Type} : List (String × α) → String → List (String × α)
  | [], _ => []
  | (k', v') :: rest, k =>
      if k' = k then rest else (k', v') :: apop rest k

/-- `k in d` -/
def ahas {α : Type} (d : List (String × α)) (k : String) : Bool :=
  (aget d k).isSome

/-- Python truthiness of an embedded value. -/
def truthy : PyVal → Bool
  | .pynone => false
  | .pybool b => b
  | .pynum q => decide (q ≠ 0)
  | .pystr s => decide (s ≠ "")
  | .resmap m => decide (m ≠ [])

/-- `safe_float(x, default)` from `dt/state.py`.  `float` of a bool is 0/1,
of a number the number itself; `float(None)`, `float(dict)` raise and give
the default.  A numeric string would parse in Python; no claim exercises
string-valued numeric fields, so strings fall to the default here. -/
def safeFloat (v : Option PyVal) (d : ℚ) : ℚ :=
  match v with
  | some (.pynum q) => q
  | some (.pybool b) => if b then 1 else 0
  | _ => d

/-- Computable `max` on ℚ (Python `max(a, b)`); equal to `max` but
kernel-reducible, so concrete runs can be settled by `decide`. -/
def maxQ (a b : ℚ) : ℚ := if a ≤ b then b else a

/-- Computable `min` on ℚ (Python `min(a, b)`). -/
def minQ (a b : ℚ) : ℚ := if a ≤ b then a else b

theorem maxQ_eq (a b : ℚ) : maxQ a b = max a b := by
  unfold maxQ
  rcases le_total a b with h | h
  · rw [if_pos h, max_eq_right h]
  · by_cases h' : a ≤ b
    · rw [if_pos h', max_eq_right h']
    · rw [if_neg h', max_eq_left h]

theorem minQ_eq (a b : ℚ) : minQ a b = min a b := by
  unfold minQ
  rcases le_total a b with h | h
  · rw [if_pos h, min_eq_left h]
  · by_cases h' : a ≤ b
    · rw [if_pos h', min_eq_left h']
    · rw [if_neg h', min_eq_right h]

/-- `clamp(x, lo, hi)` from `dt/state.py` / `dt/cost_model.py`:
`max(lo, min(hi, x))`. -/
def clampQ (x lo hi : ℚ) : ℚ := maxQ lo (minQ hi x)

/-- Python `raw + q` where `raw` is a dyn value: numbers and bools add
(bool is an int in Python), anything else raises `TypeError` (`none`). -/
def pyAddNum : PyVal → ℚ → Option ℚ
  | .pynum x, q => some (x + q)
  | .pybool b, q => some ((if b then 1 else 0) + q)
  | _, _ => none

/-- Python `raw - q` with the same conventions as `pyAddNum`. -/
def pySubNum : PyVal → ℚ → Option ℚ
  | .pynum x, q => some (x - q)
  | .pybool b, q => some ((if b then 1 else 0) - q)
  | _, _ => none

/-- `s.split(sep, 1)` for a non-empty separator: at most one split, at the
first occurrence. -/
def pySplit1 (s sep : String) : List String :=
  let ps := s.splitOn sep
  match ps with
  | [] => [s]
  | [_] => [s]
  | p :: rest => [p, String.intercalate sep rest]

/-- `link_key(a, b) = "|".join(sorted([a, b]))` from `dt/state.py` and
`sim/chaos.py`. -/
def linkKeyStr (a b : String) : String :=
  if a ≤ b then a ++ "|" ++ b else b ++ "|" ++ a

-- ---------------------------------------------------------------------
-- DTState: data model
-- ---------------------------------------------------------------------

/-- The capacity cache `node["caps"]` computed by
`DTState._compute_and_cache_capacities`; its values are always floats. -/
structure Caps where
  cpu_units : ℚ
  max_cpu_cores : ℚ
  ram_gb : ℚ
  gpu_vram_gb : ℚ
deriving DecidableEq, Repr

/-- The parts of a loaded node descriptor that the verified operations
read: `formats_supported`, the `gpu` and `accelerators` sub-dicts, the
`caps` cache and the mutable `dyn` dict. -/
structure Node where
  formats_supported : List String
  gpu : Dyn
  accelerators : Dyn
  caps : Caps
  dyn : Dyn
deriving DecidableEq, Repr

/-- A link entry of `links_by_key`: endpoints, base metrics and dyn. -/
structure Link where
  a : String
  b : String
  base : Dyn
  dyn : Dyn
deriving DecidableEq, Repr

/-- `NodeDyn().__dict__` — the fresh dyn slot for a node, in dataclass
field order. -/
def nodeDynDefault : Dyn :=
  [("down", .pybool false),
   ("thermal_derate", .pynum 0),
   ("power_cap_w", .pynone),
   ("clock_skew_ms", .pynone),
   ("packet_dup", .pynone),
   ("packet_reorder", .pynone),
   ("used_cpu_cores", .pynum 0),
   ("used_mem_gb", .pynum 0),
   ("used_gpu_vram_gb", .pynum 0),
   ("reservations", .resmap [])]

/-- `LinkDyn().__dict__` — the fresh dyn slot for a link. -/
def linkDynDefault : Dyn :=
  [("down", .pybool false),
   ("speed_gbps", .pynone),
   ("rtt_ms", .pynone),
   ("jitter_ms", .pynone),
   ("loss_pct", .pynone),
   ("ecn", .pynone)]

/-- The mutable state of a `DTState` instance: `nodes_by_name`,
`links_by_key`, `defaults["network"]` from the topology, and the
reservation counter `_res_seq` (initially 1). -/
structure Store where
  nodes : List (String × Node)
  links : List (String × Link)
  defaultsNetwork : Dyn
  resSeq : ℕ
deriving DecidableEq, Repr

/-- `DTState._is_down`: `bool(dyn.get("down", False))`. -/
def isDown (n : Node) : Bool :=
  truthy ((aget n.dyn "down").getD (.pybool false))

/-- The result dictionary of `DTState._effective_caps`. -/
structure EffCaps where
  max_cpu_cores : ℚ
  max_mem_gb : ℚ
  max_gpu_vram_gb : ℚ
  free_cpu_cores : ℚ
  free_mem_gb : ℚ
  free_gpu_vram_gb : ℚ
deriving DecidableEq, Repr

/-- `DTState._effective_caps(node)`: thermal derate shrinks usable CPU,
reservations shrink all three resources, floors at zero. -/
def effCapsCore (caps : Caps) (dyn : Dyn) : EffCaps :=
  let derate := safeFloat (aget dyn "thermal_derate") 0
  let maxCpu := caps.max_cpu_cores
  let maxMem := caps.ram_gb
  let maxVram := caps.gpu_vram_gb
  let effCpu := maxCpu * (1 - maxQ 0 (minQ 1 derate))
  let usedCpu := safeFloat (aget dyn "used_cpu_cores") 0
  let usedMem := safeFloat (aget dyn "used_mem_gb") 0
  let usedVram := safeFloat (aget dyn "used_gpu_vram_gb") 0
  { max_cpu_cores := maxCpu
    max_mem_gb := maxMem
    max_gpu_vram_gb := maxVram
    free_cpu_cores := maxQ 0 (effCpu - usedCpu)
    free_mem_gb := maxQ 0 (maxMem - usedMem)
    free_gpu_vram_gb := maxQ 0 (maxVram - usedVram) }

def effectiveCaps (n : Node) : EffCaps := effCapsCore n.caps n.dyn

/-- The float literal `1e-9` used by the feasibility comparisons. -/
def epsQ : ℚ := 1 / 1000000000

-- ---------------------------------------------------------------------
-- DTState.reserve / release
-- ---------------------------------------------------------------------

/-- A reservation request dict.  `node` is `None`/missing or a string;
the three amounts are raw values passed through `safe_float`. -/
structure ReserveReq where
  node : Option String := none
  cpu_cores : PyVal := .pynone
  mem_gb : PyVal := .pynone
  gpu_vram_gb : PyVal := .pynone
deriving DecidableEq, Repr

inductive ReserveOutcome where
  | ok (rid : String)
  | refused
  | crashed
deriving DecidableEq, Repr

/-- Zero-pad a natural number to at least seven digits: `f"{n:07d}"`. -/
def pad7 (n : ℕ) : String :=
  let s := toString n
  if s.length < 7 then String.mk (List.replicate (7 - s.length) '0') ++ s else s

/-- `f"res-{seq:07d}"`. -/
def resId (n : ℕ) : String := "res-" ++ pad7 n

/-- `DTState.reserve(req)`.  Refusals return the store unchanged.  The
`crashed` outcome models the `TypeError` Python raises when a dyn field
that should be numeric (or the reservations dict) was overwritten with an
incompatible value; mutations made before the raise are kept, exactly as
in the in-place Python code. -/
def reserve (s : Store) (req : ReserveReq) : Store × ReserveOutcome :=
  match req.node with
  | none => (s, .refused)
  | some name =>
    if name = "" then (s, .refused)
    else
      match aget s.nodes name with
      | none => (s, .refused)
      | some n =>
        if isDown n then (s, .refused)
        else
          let eff := effectiveCaps n
          let needCpu := safeFloat (some req.cpu_cores) 0
          let needMem := safeFloat (some req.mem_gb) 0
          let needVram := safeFloat (some req.gpu_vram_gb) 0
          if eff.free_cpu_cores + epsQ < needCpu then (s, .refused)
          else if eff.free_mem_gb + epsQ < needMem then (s, .refused)
          else if eff.free_gpu_vram_gb + epsQ < needVram then (s, .refused)
          else
            match (aget n.dyn "used_cpu_cores").bind (pyAddNum · needCpu) with
            | none => (s, .crashed)
            | some u1 =>
              let dyn1 := aset n.dyn "used_cpu_cores" (.pynum u1)
              match (aget dyn1 "used_mem_gb").bind (pyAddNum · needMem) with
              | none =>
                  ({ s with nodes := aset s.nodes name { n with dyn := dyn1 } }, .crashed)
              | some u2 =>
                let dyn2 := aset dyn1 "used_mem_gb" (.pynum u2)
                match (aget dyn2 "used_gpu_vram_gb").bind (pyAddNum · needVram) with
                | none =>
                    ({ s with nodes := aset s.nodes name { n with dyn := dyn2 } }, .crashed)
                | some u3 =>
                  let dyn3 := aset dyn2 "used_gpu_vram_gb" (.pynum u3)
                  let rid := resId s.resSeq
                  let seq' := s.resSeq + 1
                  match aget dyn3 "reservations" with
                  | some (.resmap m) =>
                      let dyn4 := aset dyn3 "reservations"
                        (.resmap (m ++ [(rid, ⟨needCpu, needMem, needVram⟩)]))
                      ({ s with nodes := aset s.nodes name { n with dyn := dyn4 },
                                resSeq := seq' }, .ok rid)
                  | none =>
                      let dyn4 := aset dyn3 "reservations"
                        (.resmap [(rid, ⟨needCpu, needMem, needVram⟩)])
                      ({ s with nodes := aset s.nodes name { n with dyn := dyn4 },
                                resSeq := seq' }, .ok rid)
                  | some _ =>
                      ({ s with nodes := aset s.nodes name { n with dyn := dyn3 },
                                resSeq := seq' }, .crashed)

inductive ReleaseOutcome where
  | ret (b : Bool)
  | crashed
deriving DecidableEq, Repr

/-- `DTState.release(node_name, reservation_id)`.  The pop happens on the
stored dict, so a later `TypeError` (non-numeric used field) leaves the
reservation removed — mirrored in the `crashed` branches. -/
def release (s : Store) (name rid : String) : Store × ReleaseOutcome :=
  match aget s.nodes name with
  | none => (s, .ret false)
  | some n =>
    match aget n.dyn "reservations" with
    | some (.resmap m) =>
      if m = [] then (s, .ret false)
      else
        match aget m rid with
        | none => (s, .ret false)
        | some r =>
          let m' := apop m rid
          let dyn1 := aset n.dyn "reservations" (.resmap m')
          match pySubNum ((aget dyn1 "used_cpu_cores").getD (.pynum 0)) r.cpu_cores with
          | none =>
              ({ s with nodes := aset s.nodes name { n with dyn := dyn1 } }, .crashed)
          | some c1 =>
            let dyn2 := aset dyn1 "used_cpu_cores" (.pynum (maxQ 0 c1))
            match pySubNum ((aget dyn2 "used_mem_gb").getD (.pynum 0)) r.mem_gb with
            | none =>
                ({ s with nodes := aset s.nodes name { n with dyn := dyn2 } }, .crashed)
            | some c2 =>
              let dyn3 := aset dyn2 "used_mem_gb" (.pynum (maxQ 0 c2))
              match pySubNum ((aget dyn3 "used_gpu_vram_gb").getD (.pynum 0)) r.gpu_vram_gb with
              | none =>
                  ({ s with nodes := aset s.nodes name { n with dyn := dyn3 } }, .crashed)
              | some c3 =>
                let dyn4 := aset dyn3 "used_gpu_vram_gb" (.pynum (maxQ 0 c3))
                ({ s with nodes := aset s.nodes name { n with dyn := dyn4 } }, .ret true)
    | some v => if truthy v then (s, .crashed) else (s, .ret false)
    | none => (s, .ret false)

-- ---------------------------------------------------------------------
-- DTState.apply_observation
-- ---------------------------------------------------------------------

/-- The inner `payload` dict of an observation
(`{"type": ..., "node"/"key": ..., "changes": {...}}`); the outer
`action` key is never read by `apply_observation`. -/
structure ObsPayload where
  typ : Option String := none
  node : Option String := none
  key : Option String := none
  changes : List (String × PyVal) := []
deriving DecidableEq, Repr

inductive ObsOutcome where
  | ok
  | err
deriving DecidableEq, Repr

/-- The merge loop `for k, v in changes.items(): if k in dyn: dyn[k] = v`. -/
def mergeKnown (d : Dyn) (changes : List (String × PyVal)) : Dyn :=
  changes.foldl (fun acc kv => if ahas acc kv.1 then aset acc kv.1 kv.2 else acc) d

/-- `DTState.apply_observation(payload)`.

The source has lines 413–416 (`dyn = link.setdefault(...)`; the merge
loop) dedented out of the `elif typ == "link"` branch, so they execute
after the node branch and after an unrecognised type as well, where the
local `link` (and `changes`) were never assigned: Python raises
`UnboundLocalError` there, *after* the node branch already merged its
changes.  The `err` outcome models that raise; the link-typed path with a
missing key models the `AttributeError` from `None.split`. -/
def applyObservation (s : Store) (p : ObsPayload) : Store × ObsOutcome :=
  if p.typ = some "node" then
    match p.node with
    | none => (s, .ok)
    | some nm =>
      match aget s.nodes nm with
      | none => (s, .ok)
      | some n =>
        let dyn' := mergeKnown n.dyn p.changes
        ({ s with nodes := aset s.nodes nm { n with dyn := dyn' } }, .err)
  else if p.typ = some "link" then
    match p.key with
    | none => (s, .err)
    | some k =>
      match aget s.links k with
      | some l =>
          let dyn' := mergeKnown l.dyn p.changes
          ({ s with links := aset s.links k { l with dyn := dyn' } }, .ok)
      | none =>
        let parts := pySplit1 k "|"
        match parts with
        | [pa, pb] =>
            let l : Link := { a := pa, b := pb, base := [], dyn := linkDynDefault }
            let dyn' := mergeKnown l.dyn p.changes
            ({ s with links := aset s.links k { l with dyn := dyn' } }, .ok)
        | _ => (s, .ok)
  else
    (s, .err)

-- ---------------------------------------------------------------------
-- Operation sequences over the store
-- ---------------------------------------------------------------------

inductive Op where
  | reserveOp (req : ReserveReq)
  | releaseOp (node rid : String)
  | observeOp (p : ObsPayload)
deriving Repr

/-- One public mutating operation; the store keeps whatever mutations the
operation made, also when Python would have raised. -/
def stepOp (s : Store) : Op → Store
  | .reserveOp req => (reserve s req).1
  | .releaseOp n r => (release s n r).1
  | .observeOp p => (applyObservation s p).1

def runOps (s : Store) (ops : List Op) : Store := ops.foldl stepOp s

-- ---------------------------------------------------------------------
-- Association-list lemmas
-- ---------------------------------------------------------------------

theorem aget_aset_self {α : Type} (d : List (String × α)) (k : String) (v : α) :
    aget (aset d k v) k = some v := by
  induction d with
  | nil => simp [aset, aget]
  | cons hd tl ih =>
    obtain ⟨k', v'⟩ := hd
    by_cases h : k' = k
    · simp [aset, h, aget]
    · simp [aset, h, aget, ih]

theorem aget_aset_ne {α : Type} (d : List (String × α)) (k key : String) (v : α)
    (h : k ≠ key) : aget (aset d k v) key = aget d key := by
  induction d with
  | nil => simp [aset, aget, h]
  | cons hd tl ih =>
    obtain ⟨k', v'⟩ := hd
    by_cases hk : k' = k
    · subst hk
      simp [aset, aget, h]
    · simp [aset, hk, aget, ih]

theorem aget_mem {α : Type} (d : List (String × α)) (k : String) (v : α)
    (h : aget d k = some v) : (k, v) ∈ d := by
  induction d with
  | nil => simp [aget] at h
  | cons hd tl ih =>
    obtain ⟨k', v'⟩ := hd
    by_cases hk : k' = k
    · subst hk
      simp [aget] at h
      simp [h]
    · simp [aget, hk] at h
      exact List.mem_cons_of_mem _ (ih h)

theorem mem_apop {α : Type} (d : List (String × α)) (k : String) (kv : String × α)
    (h : kv ∈ apop d k) : kv ∈ d := by
  induction d with
  | nil => simp [apop] at h
  | cons hd tl ih =>
    obtain ⟨k', v'⟩ := hd
    by_cases hk : k' = k
    · simp [apop, hk] at h
      simp [h]
    · simp [apop, hk] at h
      rcases h with h | h
      · simp [h]
      · exact List.mem_cons_of_mem _ (ih h)

-- ---------------------------------------------------------------------
-- The reservation-sum invariant (claim C1)
-- ---------------------------------------------------------------------

/-- Sum of one resource over a reservations dict. -/
def resvSum (f : Resv → ℚ) (m : List (String × Resv)) : ℚ :=
  (m.map (fun kv => f kv.2)).sum

theorem resvSum_append (f : Resv → ℚ) (m : List (String × Resv)) (kv : String × Resv) :
    resvSum f (m ++ [kv]) = resvSum f m + f kv.2 := by
  simp [resvSum]

theorem resvSum_apop (f : Resv → ℚ) (m : List (String × Resv)) (rid : String) (r : Resv)
    (h : aget m rid = some r) :
    resvSum f m = f r + resvSum f (apop m rid) := by
  induction m with
  | nil => simp [aget] at h
  | cons hd tl ih =>
    obtain ⟨k', v'⟩ := hd
    by_cases hk : k' = rid
    · subst hk
      simp [aget] at h
      subst h
      simp [apop, resvSum]
    · simp [aget, hk] at h
      have := ih h
      simp [apop, hk, resvSum] at this ⊢
      linarith

/-- The spec invariant: the node's outstanding reservations sum exactly to
the `used_*` dyn fields, per resource. -/
def dynInv (d : Dyn) : Prop :=
  ∃ m : List (String × Resv),
    aget d "reservations" = some (.resmap m) ∧
    aget d "used_cpu_cores" = some (.pynum (resvSum (fun r => r.cpu_cores) m)) ∧
    aget d "used_mem_gb" = some (.pynum (resvSum (fun r => r.mem_gb) m)) ∧
    aget d "used_gpu_vram_gb" = some (.pynum (resvSum (fun r => r.gpu_vram_gb) m))

/-- Every recorded amount is nonnegative (auxiliary strengthening needed
because `release` clamps `used_*` at zero). -/
def resvNonneg (m : List (String × Resv)) : Prop :=
  ∀ kv ∈ m, 0 ≤ kv.2.cpu_cores ∧ 0 ≤ kv.2.mem_gb ∧ 0 ≤ kv.2.gpu_vram_gb

def dynInvN (d : Dyn) : Prop :=
  ∃ m : List (String × Resv),
    aget d "reservations" = some (.resmap m) ∧
    aget d "used_cpu_cores" = some (.pynum (resvSum (fun r => r.cpu_cores) m)) ∧
    aget d "used_mem_gb" = some (.pynum (resvSum (fun r => r.mem_gb) m)) ∧
    aget d "used_gpu_vram_gb" = some (.pynum (resvSum (fun r => r.gpu_vram_gb) m)) ∧
    resvNonneg m

def storeInv (s : Store) : Prop :=
  ∀ nm n, aget s.nodes nm = some n → dynInv n.dyn

def storeInvN (s : Store) : Prop :=
  ∀ nm n, aget s.nodes nm = some n → dynInvN n.dyn

theorem dynInvN_dynInv {d : Dyn} (h : dynInvN d) : dynInv d := by
  obtain ⟨m, h1, h2, h3, h4, _⟩ := h
  exact ⟨m, h1, h2, h3, h4⟩

theorem resvSum_nonneg (f : Resv → ℚ) (m : List (String × Resv))
    (hf : ∀ kv ∈ m, 0 ≤ f kv.2) : 0 ≤ resvSum f m := by
  induction m with
  | nil => simp [resvSum]
  | cons hd tl ih =>
    have h0 : 0 ≤ f hd.2 := hf hd (by simp)
    have h1 : 0 ≤ resvSum f tl := ih fun kv hkv => hf kv (List.mem_cons_of_mem _ hkv)
    simp [resvSum] at h1 ⊢
    linarith

/-- A node's dyn slot as produced by the load path
(`_load_nodes_locked` creates `NodeDyn().__dict__` and
`_apply_overrides_locked` only touches the six allow-listed non-resource
fields), as far as the resource-accounting fields are concerned. -/
def loadedDyn (d : Dyn) : Prop :=
  aget d "used_cpu_cores" = some (.pynum 0) ∧
  aget d "used_mem_gb" = some (.pynum 0) ∧
  aget d "used_gpu_vram_gb" = some (.pynum 0) ∧
  aget d "reservations" = some (.resmap [])

def loadedStore (s : Store) : Prop :=
  ∀ nm n, aget s.nodes nm = some n → loadedDyn n.dyn

theorem loadedDyn_dynInvN {d : Dyn} (h : loadedDyn d) : dynInvN d := by
  obtain ⟨h1, h2, h3, h4⟩ := h
  exact ⟨[], h4, by simpa [resvSum] using h1, by simpa [resvSum] using h2,
    by simpa [resvSum] using h3, by intro kv hkv; simp at hkv⟩

-- ---------------------------------------------------------------------
-- Characterising `reserve`
-- ---------------------------------------------------------------------

/-- The refusal condition of `DTState.reserve`, read off the spec: the
request names no node (or the falsy empty string), the node is unknown,
the node is down, or a requested amount exceeds the effective free
capacity by more than the `1e-9` tolerance. -/
def reserveRefuses (s : Store) (req : ReserveReq) : Prop :=
  match req.node with
  | none => True
  | some name =>
      name = "" ∨
      match aget s.nodes name with
      | none => True
      | some n =>
          isDown n = true ∨
          (effectiveCaps n).free_cpu_cores + epsQ < safeFloat (some req.cpu_cores) 0 ∨
          (effectiveCaps n).free_mem_gb + epsQ < safeFloat (some req.mem_gb) 0 ∨
          (effectiveCaps n).free_gpu_vram_gb + epsQ < safeFloat (some req.gpu_vram_gb) 0

theorem reserve_refused_iff (s : Store) (req : ReserveReq) :
    (reserve s req).2 = .refused ↔ reserveRefuses s req := by
  unfold reserve reserveRefuses
  cases hnode : req.node with
  | none => simp
  | some name =>
    by_cases hname : name = ""
    · simp [hname]
    · simp only [hname, if_false]
      cases hget : aget s.nodes name with
      | none => simp
      | some n =>
        by_cases hdown : isDown n = true
        · simp [hdown]
        · simp only [hdown, if_false]
          by_cases h1 : (effectiveCaps n).free_cpu_cores + epsQ < safeFloat (some req.cpu_cores) 0
          · simp [h1]
          · by_cases h2 : (effectiveCaps n).free_mem_gb + epsQ < safeFloat (some req.mem_gb) 0
            · simp [h1, h2]
            · by_cases h3 :
                  (effectiveCaps n).free_gpu_vram_gb + epsQ < safeFloat (some req.gpu_vram_gb) 0
              · simp [h1, h2, h3]
              · simp only [h1, h2, h3, hdown, Bool.false_eq_true, if_false, or_false,
                  or_self, iff_false]
                intro hcontra
                split at hcontra
                · simp at hcontra
                · split at hcontra
                  · simp at hcontra
                  · split at hcontra
                    · simp at hcontra
                    · split at hcontra <;> simp at hcontra

/-- Full description of a successful `reserve`: the three `used_*` fields
are incremented by the requested amounts, the amounts are recorded under a
fresh id `res-NNNNNNN` built from `_res_seq`, and the counter advances. -/
theorem reserve_ok_spec (s : Store) (req : ReserveReq) (name : String) (n : Node)
    (c1 c2 c3 : ℚ) (m : List (String × Resv))
    (hnode : req.node = some name) (hname : name ≠ "")
    (hget : aget s.nodes name = some n) (hdown : isDown n = false)
    (hc : aget n.dyn "used_cpu_cores" = some (.pynum c1))
    (hm : aget n.dyn "used_mem_gb" = some (.pynum c2))
    (hv : aget n.dyn "used_gpu_vram_gb" = some (.pynum c3))
    (hr : aget n.dyn "reservations" = some (.resmap m))
    (h1 : ¬ ((effectiveCaps n).free_cpu_cores + epsQ < safeFloat (some req.cpu_cores) 0))
    (h2 : ¬ ((effectiveCaps n).free_mem_gb + epsQ < safeFloat (some req.mem_gb) 0))
    (h3 : ¬ ((effectiveCaps n).free_gpu_vram_gb + epsQ < safeFloat (some req.gpu_vram_gb) 0)) :
    reserve s req =
      ({ s with
          nodes := (aset s.nodes name
            { n with dyn := (aset (aset (aset (aset n.dyn
                  "used_cpu_cores" (.pynum (c1 + safeFloat (some req.cpu_cores) 0)))
                  "used_mem_gb" (.pynum (c2 + safeFloat (some req.mem_gb) 0)))
                  "used_gpu_vram_gb" (.pynum (c3 + safeFloat (some req.gpu_vram_gb) 0)))
                  "reservations" (.resmap (m ++ [(resId s.resSeq,
                    ⟨safeFloat (some req.cpu_cores) 0, safeFloat (some req.mem_gb) 0,
                     safeFloat (some req.gpu_vram_gb) 0⟩)]))) }),
          resSeq := s.resSeq + 1 }, .ok (resId s.resSeq)) := by
  have e1 : ("used_cpu_cores" : String) ≠ "used_mem_gb" := by decide
  have e2 : ("used_cpu_cores" : String) ≠ "used_gpu_vram_gb" := by decide
  have e3 : ("used_mem_gb" : String) ≠ "used_gpu_vram_gb" := by decide
  have e4 : ("used_cpu_cores" : String) ≠ "reservations" := by decide
  have e5 : ("used_mem_gb" : String) ≠ "reservations" := by decide
  have e6 : ("used_gpu_vram_gb" : String) ≠ "reservations" := by decide
  unfold reserve
  simp only [hnode, hname, hget, hdown, h1, h2, h3, Bool.false_eq_true, if_false,
    aget_aset_ne _ _ _ _ e1, aget_aset_ne _ _ _ _ e2, aget_aset_ne _ _ _ _ e3,
    aget_aset_ne _ _ _ _ e4, aget_aset_ne _ _ _ _ e5, aget_aset_ne _ _ _ _ e6,
    hc, hm, hv, hr, Option.some_bind, pyAddNum]

/-- Refused reservations leave the store unchanged. -/
theorem reserve_refuses_state (s : Store) (req : ReserveReq)
    (h : reserveRefuses s req) : (reserve s req).1 = s := by
  unfold reserve
  unfold reserveRefuses at h
  cases hnode : req.node with
  | none => simp
  | some name =>
    rw [hnode] at h
    by_cases hname : name = ""
    · simp [hname]
    · simp only [hname, false_or] at h
      simp only [hname, if_false]
      cases hget : aget s.nodes name with
      | none => simp
      | some n =>
        rw [hget] at h
        by_cases hdown : isDown n = true
        · simp [hdown]
        · simp only [hdown, false_or] at h
          by_cases h1 : (effectiveCaps n).free_cpu_cores + epsQ < safeFloat (some req.cpu_cores) 0
          · simp [h1]
          · by_cases h2 : (effectiveCaps n).free_mem_gb + epsQ < safeFloat (some req.mem_gb) 0
            · simp [h1, h2]
            · by_cases h3 :
                  (effectiveCaps n).free_gpu_vram_gb + epsQ < safeFloat (some req.gpu_vram_gb) 0
              · simp [h1, h2, h3]
              · simp only [h1, h2, h3, or_self, or_false, false_or] at h
                simp at h

/-- Requests with nonnegative amounts (after `safe_float`). -/
def nonnegReq (req : ReserveReq) : Prop :=
  0 ≤ safeFloat (some req.cpu_cores) 0 ∧
  0 ≤ safeFloat (some req.mem_gb) 0 ∧
  0 ≤ safeFloat (some req.gpu_vram_gb) 0

/-- Extract the per-branch facts from a non-refused reservation. -/
theorem not_refuses_elim (s : Store) (req : ReserveReq) (h : ¬ reserveRefuses s req) :
    ∃ name n, req.node = some name ∧ name ≠ "" ∧ aget s.nodes name = some n ∧
      isDown n = false ∧
      ¬ ((effectiveCaps n).free_cpu_cores + epsQ < safeFloat (some req.cpu_cores) 0) ∧
      ¬ ((effectiveCaps n).free_mem_gb + epsQ < safeFloat (some req.mem_gb) 0) ∧
      ¬ ((effectiveCaps n).free_gpu_vram_gb + epsQ < safeFloat (some req.gpu_vram_gb) 0) := by
  unfold reserveRefuses at h
  cases hnode : req.node with
  | none => rw [hnode] at h; exact absurd trivial h
  | some name =>
    rw [hnode] at h
    dsimp only at h
    rw [not_or] at h
    obtain ⟨hname, h'⟩ := h
    cases hget : aget s.nodes name with
    | none => rw [hget] at h'; exact absurd trivial h'
    | some n =>
      rw [hget] at h'
      dsimp only at h'
      rw [not_or, not_or, not_or] at h'
      obtain ⟨hd, h1, h2, h3⟩ := h'
      exact ⟨name, n, rfl, hname, hget, by simpa using hd, h1, h2, h3⟩

theorem storeInvN_reserve (s : Store) (req : ReserveReq)
    (hs : storeInvN s) (hreq : nonnegReq req) : storeInvN (reserve s req).1 := by
  by_cases href : reserveRefuses s req
  · rw [reserve_refuses_state s req href]; exact hs
  · obtain ⟨name, n, hnode, hname, hget, hdown, h1, h2, h3⟩ := not_refuses_elim s req href
    obtain ⟨m, hr, hc, hm, hv, hnn⟩ := hs name n hget
    rw [reserve_ok_spec s req name n _ _ _ m hnode hname hget hdown hc hm hv hr h1 h2 h3]
    intro nm' n' hget'
    by_cases hnm : nm' = name
    · subst hnm
      rw [aget_aset_self] at hget'
      obtain rfl := Option.some_injective _ hget'.symm
      refine ⟨m ++ [(resId s.resSeq,
        ⟨safeFloat (some req.cpu_cores) 0, safeFloat (some req.mem_gb) 0,
         safeFloat (some req.gpu_vram_gb) 0⟩)], ?_, ?_, ?_, ?_, ?_⟩
      · exact aget_aset_self _ _ _
      · rw [aget_aset_ne _ _ _ _ (by decide), aget_aset_ne _ _ _ _ (by decide),
          aget_aset_ne _ _ _ _ (by decide), aget_aset_self, resvSum_append]
      · rw [aget_aset_ne _ _ _ _ (by decide), aget_aset_ne _ _ _ _ (by decide),
          aget_aset_self, resvSum_append]
      · rw [aget_aset_ne _ _ _ _ (by decide), aget_aset_self, resvSum_append]
      · intro kv hkv
        rcases List.mem_append.mp hkv with hkv | hkv
        · exact hnn kv hkv
        · simp at hkv
          rw [hkv]
          exact ⟨hreq.1, hreq.2.1, hreq.2.2⟩
    · rw [aget_aset_ne _ _ _ _ (Ne.symm hnm)] at hget'
      exact hs nm' n' hget'

theorem storeInvN_release (s : Store) (name rid : String) (hs : storeInvN s) :
    storeInvN (release s name rid).1 := by
  unfold release
  cases hget : aget s.nodes name with
  | none => simpa using hs
  | some n =>
    obtain ⟨m, hr, hc, hm, hv, hnn⟩ := hs name n hget
    simp only [hr]
    by_cases hm0 : m = []
    · simpa [hm0] using hs
    · simp only [hm0, if_false]
      cases hrid : aget m rid with
      | none => simpa using hs
      | some r =>
        simp only [aget_aset_ne _ _ _ _ (show ("reservations" : String) ≠ "used_cpu_cores" by decide),
          aget_aset_ne _ _ _ _ (show ("reservations" : String) ≠ "used_mem_gb" by decide),
          aget_aset_ne _ _ _ _ (show ("reservations" : String) ≠ "used_gpu_vram_gb" by decide),
          aget_aset_ne _ _ _ _ (show ("used_cpu_cores" : String) ≠ "used_mem_gb" by decide),
          aget_aset_ne _ _ _ _ (show ("used_cpu_cores" : String) ≠ "used_gpu_vram_gb" by decide),
          aget_aset_ne _ _ _ _ (show ("used_mem_gb" : String) ≠ "used_gpu_vram_gb" by decide),
          hc, hm, hv, Option.getD_some, pySubNum]
        intro nm' n' hget'
        by_cases hnm : nm' = name
        · subst hnm
          rw [aget_aset_self] at hget'
          obtain rfl := Option.some_injective _ hget'.symm
          have hsplitC := resvSum_apop (fun r => r.cpu_cores) m rid r hrid
          have hsplitM := resvSum_apop (fun r => r.mem_gb) m rid r hrid
          have hsplitV := resvSum_apop (fun r => r.gpu_vram_gb) m rid r hrid
          have hnn' : resvNonneg (apop m rid) := fun kv hkv => hnn kv (mem_apop _ _ _ hkv)
          have hC0 : 0 ≤ resvSum (fun r => r.cpu_cores) (apop m rid) :=
            resvSum_nonneg _ _ fun kv hkv => (hnn' kv hkv).1
          have hM0 : 0 ≤ resvSum (fun r => r.mem_gb) (apop m rid) :=
            resvSum_nonneg _ _ fun kv hkv => (hnn' kv hkv).2.1
          have hV0 : 0 ≤ resvSum (fun r => r.gpu_vram_gb) (apop m rid) :=
            resvSum_nonneg _ _ fun kv hkv => (hnn' kv hkv).2.2
          refine ⟨apop m rid, ?_, ?_, ?_, ?_, hnn'⟩
          · rw [aget_aset_ne _ _ _ _ (by decide), aget_aset_ne _ _ _ _ (by decide),
              aget_aset_ne _ _ _ _ (by decide), aget_aset_self]
          · rw [aget_aset_ne _ _ _ _ (by decide), aget_aset_ne _ _ _ _ (by decide),
              aget_aset_self]
            congr 2
            rw [maxQ_eq, hsplitC]
            rw [max_eq_right (by linarith)]
            ring
          · rw [aget_aset_ne _ _ _ _ (by decide), aget_aset_self]
            congr 2
            rw [maxQ_eq, hsplitM]
            rw [max_eq_right (by linarith)]
            ring
          · rw [aget_aset_self]
            congr 2
            rw [maxQ_eq, hsplitV]
            rw [max_eq_right (by linarith)]
            ring
        · rw [aget_aset_ne _ _ _ _ (Ne.symm hnm)] at hget'
          exact hs nm' n' hget'

/-- Changes whose keys avoid the resource-accounting fields. -/
def benignObs (p : ObsPayload) : Prop :=
  ∀ kv ∈ p.changes,
    kv.1 ≠ "used_cpu_cores" ∧ kv.1 ≠ "used_mem_gb" ∧
    kv.1 ≠ "used_gpu_vram_gb" ∧ kv.1 ≠ "reservations"

theorem aget_mergeKnown_ne (d : Dyn) (ch : List (String × PyVal)) (k : String)
    (h : ∀ kv ∈ ch, kv.1 ≠ k) : aget (mergeKnown d ch) k = aget d k := by
  induction ch generalizing d with
  | nil => rfl
  | cons kv rest ih =>
    have hkv : kv.1 ≠ k := h kv (by simp)
    have hrest : ∀ kv' ∈ rest, kv'.1 ≠ k := fun kv' hkv' => h kv' (List.mem_cons_of_mem _ hkv')
    rw [mergeKnown, List.foldl_cons]
    by_cases hh : ahas d kv.1 = true
    · rw [if_pos hh, ← mergeKnown, ih _ hrest, aget_aset_ne _ _ _ _ hkv]
    · rw [if_neg hh, ← mergeKnown, ih _ hrest]

theorem storeInvN_observe (s : Store) (p : ObsPayload)
    (hs : storeInvN s) (hp : benignObs p) : storeInvN (applyObservation s p).1 := by
  unfold applyObservation
  by_cases ht : p.typ = some "node"
  · simp only [ht, if_true]
    cases hn : p.node with
    | none => simpa using hs
    | some nm =>
      dsimp only
      cases hget : aget s.nodes nm with
      | none => simpa using hs
      | some n =>
        dsimp only
        intro nm' n' hget'
        by_cases hnm : nm' = nm
        · subst hnm
          simp only [aget_aset_self] at hget'
          obtain rfl := Option.some_injective _ hget'.symm
          obtain ⟨m, hr, hc, hm, hv, hnn⟩ := hs nm' n hget
          refine ⟨m, ?_, ?_, ?_, ?_, hnn⟩ <;>
            rw [show ({ n with dyn := mergeKnown n.dyn p.changes } : Node).dyn =
                  mergeKnown n.dyn p.changes from rfl,
              aget_mergeKnown_ne _ _ _ (fun kv hkv => ?_)]
          · exact hr
          · exact (hp kv hkv).2.2.2
          · exact hc
          · exact (hp kv hkv).1
          · exact hm
          · exact (hp kv hkv).2.1
          · exact hv
          · exact (hp kv hkv).2.2.1
        · simp only [aget_aset_ne _ _ _ _ (Ne.symm hnm)] at hget'
          exact hs nm' n' hget'
  · by_cases hl : p.typ = some "link"
    · rw [if_neg ht, if_pos hl]
      cases hk : p.key with
      | none => simpa using hs
      | some k =>
        dsimp only
        cases hgetl : aget s.links k with
        | some l => exact fun nm' n' hget' => hs nm' n' hget'
        | none =>
          dsimp only
          cases hparts : pySplit1 k "|" with
          | nil => simpa using hs
          | cons pa rest =>
            cases rest with
            | nil => simpa using hs
            | cons pb rest2 =>
              cases rest2 with
              | nil => exact fun nm' n' hget' => hs nm' n' hget'
              | cons x xs => simpa using hs
    · rw [if_neg ht, if_neg hl]
      exact hs

/-- Operations in scope for the amended reservation-sum invariant:
reservations with nonnegative amounts, any release, and observations that
do not overwrite the resource-accounting dyn fields. -/
def benignOp : Op → Prop
  | .reserveOp req => nonnegReq req
  | .releaseOp _ _ => True
  | .observeOp p => benignObs p

theorem storeInvN_step (s : Store) (op : Op) (hs : storeInvN s) (hop : benignOp op) :
    storeInvN (stepOp s op) := by
  cases op with
  | reserveOp req => exact storeInvN_reserve s req hs hop
  | releaseOp nm rid => exact storeInvN_release s nm rid hs
  | observeOp p => exact storeInvN_observe s p hs hop

theorem storeInvN_runOps (s : Store) (ops : List Op) (hs : storeInvN s)
    (hops : ∀ op ∈ ops, benignOp op) : storeInvN (runOps s ops) := by
  induction ops generalizing s with
  | nil => exact hs
  | cons op rest ih =>
    rw [runOps, List.foldl_cons]
    exact ih _ (storeInvN_step s op hs (hops op (by simp)))
      (fun op' hop' => hops op' (List.mem_cons_of_mem _ hop'))

-- ---------------------------------------------------------------------
-- Claim C1
-- ---------------------------------------------------------------------

/-- C1 (amended): starting from a loaded store, for every sequence of
Reserve / Release / ApplyObservation operations in which reservation
requests carry nonnegative amounts and observations do not overwrite the
`used_*` / `reservations` dyn fields, every node satisfies
Σ reservation.cpu_cores = dyn.used_cpu_cores, and likewise for
mem_gb/used_mem_gb and gpu_vram_gb/used_gpu_vram_gb (`storeInv`).
The original claim fails without the extra conditions: `apply_observation`
merges any key already present in `dyn`, which includes the accounting
fields themselves (see the counterexample), and `release` clamps `used_*`
at zero, which negative reservation amounts can desynchronise. -/
theorem C1_reserve_release_observe_sum_invariant (s : Store) (ops : List Op)
    (hload : loadedStore s) (hops : ∀ op ∈ ops, benignOp op) :
    storeInv (runOps s ops) :=
  fun nm n hget =>
    dynInvN_dynInv
      (storeInvN_runOps s ops
        (fun nm' n' hget' => loadedDyn_dynInvN (hload nm' n' hget')) hops nm n hget)

def demoNode : Node :=
  { formats_supported := ["native"], gpu := [], accelerators := [],
    caps := ⟨16, 8, 32, 8⟩, dyn := nodeDynDefault }

def demoStore : Store :=
  { nodes := [("ws-001", demoNode)], links := [], defaultsNetwork := [], resSeq := 1 }

def demoOps : List Op :=
  [.reserveOp { node := some "ws-001", cpu_cores := .pynum 2, mem_gb := .pynum 4,
                gpu_vram_gb := .pynum 1 },
   .observeOp { typ := some "node", node := some "ws-001",
                changes := [("thermal_derate", .pynum (1/2))] },
   .reserveOp { node := some "ws-001", cpu_cores := .pynum 1 },
   .releaseOp "ws-001" (resId 1)]

/-- Witness for C1 at a concrete store and operation sequence. -/
theorem C1_witness : storeInv (runOps demoStore demoOps) := by
  apply C1_reserve_release_observe_sum_invariant
  · intro nm n h
    simp only [demoStore, aget] at h
    split at h
    · obtain rfl := Option.some_injective _ h.symm
      unfold loadedDyn
      decide
    · simp [aget] at h
  · intro op hop
    simp only [demoOps, List.mem_cons, List.not_mem_nil, or_false] at hop
    rcases hop with rfl | rfl | rfl | rfl
    · exact ⟨by norm_num [safeFloat], by norm_num [safeFloat], by norm_num [safeFloat]⟩
    · intro kv hkv
      simp at hkv
      subst hkv
      refine ⟨by decide, by decide, by decide, by decide⟩
    · exact ⟨by norm_num [safeFloat], by norm_num [safeFloat], by norm_num [safeFloat]⟩
    · trivial

def badObs : ObsPayload :=
  { typ := some "node", node := some "ws-001",
    changes := [("used_cpu_cores", .pynum 5)] }

def demoNodeAfter : Node :=
  { demoNode with dyn := aset nodeDynDefault "used_cpu_cores" (.pynum 5) }

/-- C1 counterexample: a single ApplyObservation that writes the
`used_cpu_cores` dyn field (which `apply_observation` accepts, since the
key is present in `dyn`) breaks the reservation-sum invariant: the node
ends with `used_cpu_cores = 5` and no reservations. -/
theorem C1_counterexample : ¬ storeInv (runOps demoStore [.observeOp badObs]) := by
  intro h
  have hget : aget (runOps demoStore [.observeOp badObs]).nodes "ws-001" =
      some demoNodeAfter := by decide
  obtain ⟨m, hr, hc, -, -⟩ := h "ws-001" demoNodeAfter hget
  have hr' : aget demoNodeAfter.dyn "reservations" = some (PyVal.resmap []) := by decide
  have hm0 : m = [] := by
    have hmm := hr'.symm.trans hr
    simpa using hmm
  subst hm0
  have hc' : aget demoNodeAfter.dyn "used_cpu_cores" = some (PyVal.pynum 5) := by decide
  have hcc := hc'.symm.trans hc
  simp [resvSum] at hcc

-- ---------------------------------------------------------------------
-- Reservation-id sequencing
-- ---------------------------------------------------------------------

theorem reserve_ok_rid (s : Store) (req : ReserveReq) (s' : Store) (rid : String)
    (hres : reserve s req = (s', .ok rid)) :
    rid = resId s.resSeq ∧ s'.resSeq = s.resSeq + 1 := by
  unfold reserve at hres
  try dsimp only at hres
  repeat' split at hres
  all_goals
    injection hres with h1 h2
  all_goals
    first
      | (injection h2 with h3; subst h1; exact ⟨h3.symm, rfl⟩)
      | injection h2

theorem reserve_seq_le_pair (s : Store) (req : ReserveReq) (s' : Store) (out : ReserveOutcome)
    (hres : reserve s req = (s', out)) : s.resSeq ≤ s'.resSeq := by
  unfold reserve at hres
  try dsimp only at hres
  repeat' split at hres
  all_goals
    injection hres with h1 h2
  all_goals
    subst h1
  all_goals
    try dsimp only
  all_goals omega

theorem reserve_seq_le (s : Store) (req : ReserveReq) :
    s.resSeq ≤ (reserve s req).1.resSeq :=
  reserve_seq_le_pair s req (reserve s req).1 (reserve s req).2 rfl

theorem release_resSeq_pair (s : Store) (name rid : String) (s' : Store) (out : ReleaseOutcome)
    (hres : release s name rid = (s', out)) : s'.resSeq = s.resSeq := by
  unfold release at hres
  try dsimp only at hres
  repeat' split at hres
  all_goals
    injection hres with h1 h2
  all_goals
    subst h1
  all_goals rfl

theorem release_resSeq (s : Store) (name rid : String) :
    (release s name rid).1.resSeq = s.resSeq :=
  release_resSeq_pair s name rid (release s name rid).1 (release s name rid).2 rfl

theorem observe_resSeq_pair (s : Store) (p : ObsPayload) (s' : Store) (out : ObsOutcome)
    (hres : applyObservation s p = (s', out)) : s'.resSeq = s.resSeq := by
  unfold applyObservation at hres
  try dsimp only at hres
  repeat' split at hres
  all_goals
    injection hres with h1 h2
  all_goals
    subst h1
  all_goals rfl

theorem observe_resSeq (s : Store) (p : ObsPayload) :
    (applyObservation s p).1.resSeq = s.resSeq :=
  observe_resSeq_pair s p (applyObservation s p).1 (applyObservation s p).2 rfl

theorem stepOp_seq_le (s : Store) (op : Op) : s.resSeq ≤ (stepOp s op).resSeq := by
  cases op with
  | reserveOp req => exact reserve_seq_le s req
  | releaseOp nm rid => exact (release_resSeq s nm rid).ge
  | observeOp p => exact (observe_resSeq s p).ge

theorem runOps_seq_le (s : Store) (ops : List Op) : s.resSeq ≤ (runOps s ops).resSeq := by
  induction ops generalizing s with
  | nil => exact le_refl _
  | cons op rest ih =>
    rw [runOps, List.foldl_cons]
    exact le_trans (stepOp_seq_le s op) (ih (stepOp s op))

-- ---------------------------------------------------------------------
-- Claims C3 and C10
-- ---------------------------------------------------------------------

/-- The refusal condition in the words of the spec (for stores with no
empty-named node): the named node is missing, marked down, or a requested
amount exceeds the node's effective free capacity by more than `1e-9`. -/
def reserveRefusalSpec (s : Store) (req : ReserveReq) : Prop :=
  match req.node with
  | none => True
  | some name =>
      aget s.nodes name = none ∨
      ∃ n, aget s.nodes name = some n ∧
        (isDown n = true ∨
         (effectiveCaps n).free_cpu_cores + epsQ < safeFloat (some req.cpu_cores) 0 ∨
         (effectiveCaps n).free_mem_gb + epsQ < safeFloat (some req.mem_gb) 0 ∨
         (effectiveCaps n).free_gpu_vram_gb + epsQ < safeFloat (some req.gpu_vram_gb) 0)

theorem refusalSpec_iff (s : Store) (req : ReserveReq) (hempty : aget s.nodes "" = none) :
    reserveRefusalSpec s req ↔ reserveRefuses s req := by
  unfold reserveRefusalSpec reserveRefuses
  cases hnode : req.node with
  | none => exact Iff.rfl
  | some name =>
    dsimp only
    cases hget : aget s.nodes name with
    | none => simp
    | some n =>
      constructor
      · intro h
        rcases h with h | ⟨n', hn', hcond⟩
        · exact absurd h (by simp)
        · obtain rfl := Option.some_injective _ hn'.symm
          exact Or.inr hcond
      · intro h
        rcases h with h | hcond
        · subst h
          rw [hempty] at hget
          cases hget
        · exact Or.inr ⟨n, rfl, hcond⟩

/-- The store after a successful `reserve`: `used_*` incremented, the
request amounts recorded under the fresh id, counter advanced. -/
def reserveSuccessStore (s : Store) (req : ReserveReq) (name : String) (n : Node)
    (c1 c2 c3 : ℚ) (m : List (String × Resv)) : Store :=
  { s with
      nodes := (aset s.nodes name
        { n with dyn := (aset (aset (aset (aset n.dyn
              "used_cpu_cores" (.pynum (c1 + safeFloat (some req.cpu_cores) 0)))
              "used_mem_gb" (.pynum (c2 + safeFloat (some req.mem_gb) 0)))
              "used_gpu_vram_gb" (.pynum (c3 + safeFloat (some req.gpu_vram_gb) 0)))
              "reservations" (.resmap (m ++ [(resId s.resSeq,
                ⟨safeFloat (some req.cpu_cores) 0, safeFloat (some req.mem_gb) 0,
                 safeFloat (some req.gpu_vram_gb) 0⟩)]))) }),
      resSeq := s.resSeq + 1 }

/-- C3 (amended): for stores with no empty-named node (the load path skips
unnamed descriptors), `reserve` returns none exactly when the named node
is missing, down, or a requested amount exceeds effective free capacity by
more than the `1e-9` tolerance; otherwise (for numeric accounting fields)
it increments `used_*` by the requested amounts, records them under the
node, and returns `res-NNNNNNN` ids whose numeric part strictly increases
across successive successful reserves.  The original claim's boundary
("exceeds the free capacity") is off by the `1e-9` tolerance: see the
counterexample, where a request strictly exceeding a zero free capacity is
accepted. -/
theorem C3_reserve_contract (s : Store) (req : ReserveReq)
    (hempty : aget s.nodes "" = none) :
    ((reserve s req).2 = ReserveOutcome.refused ↔ reserveRefusalSpec s req) ∧
    (∀ name n c1 c2 c3 m, req.node = some name → aget s.nodes name = some n →
        aget n.dyn "used_cpu_cores" = some (.pynum c1) →
        aget n.dyn "used_mem_gb" = some (.pynum c2) →
        aget n.dyn "used_gpu_vram_gb" = some (.pynum c3) →
        aget n.dyn "reservations" = some (.resmap m) →
        ¬ reserveRefusalSpec s req →
        reserve s req = (reserveSuccessStore s req name n c1 c2 c3 m,
          ReserveOutcome.ok (resId s.resSeq))) ∧
    (∀ s' rid, reserve s req = (s', .ok rid) →
        rid = resId s.resSeq ∧ s'.resSeq = s.resSeq + 1) ∧
    (∀ (mid : List Op) (req₂ : ReserveReq) (s₁ s₂ : Store) (rid rid₂ : String),
        reserve s req = (s₁, .ok rid) →
        reserve (runOps s₁ mid) req₂ = (s₂, .ok rid₂) →
        ∃ i j, rid = resId i ∧ rid₂ = resId j ∧ i < j) := by
  refine ⟨(reserve_refused_iff s req).trans (refusalSpec_iff s req hempty).symm,
    ?_, fun s' rid h => reserve_ok_rid s req s' rid h, ?_⟩
  · intro name n c1 c2 c3 m hnode hget hc hm hv hr hnot
    have hnot' : ¬ reserveRefuses s req := fun h =>
      hnot ((refusalSpec_iff s req hempty).mpr h)
    obtain ⟨name', n', hnode', hname', hget', hdown', h1', h2', h3'⟩ :=
      not_refuses_elim s req hnot'
    obtain rfl : name = name' := by
      rw [hnode] at hnode'
      exact (Option.some_injective _ hnode')
    obtain rfl : n = n' := by
      rw [hget] at hget'
      exact (Option.some_injective _ hget')
    exact reserve_ok_spec s req name n c1 c2 c3 m hnode hname' hget hdown' hc hm hv hr
      h1' h2' h3'
  · intro mid req₂ s₁ s₂ rid rid₂ h1 h2
    obtain ⟨hrid, hseq⟩ := reserve_ok_rid s req s₁ rid h1
    obtain ⟨hrid₂, -⟩ := reserve_ok_rid _ req₂ s₂ rid₂ h2
    refine ⟨s.resSeq, (runOps s₁ mid).resSeq, hrid, hrid₂, ?_⟩
    have := runOps_seq_le s₁ mid
    omega

def zeroNode : Node :=
  { formats_supported := [], gpu := [], accelerators := [],
    caps := ⟨0, 0, 0, 0⟩, dyn := nodeDynDefault }

def zeroStore : Store :=
  { nodes := [("pi-001", zeroNode)], links := [], defaultsNetwork := [], resSeq := 1 }

def tinyReq : ReserveReq :=
  { node := some "pi-001", cpu_cores := .pynum (1 / 10000000000) }

/-- C3 counterexample: on a node with zero capacity the request
`cpu_cores = 1e-10` strictly exceeds the effective free capacity (0), so
the claim as stated demands a refusal, yet `reserve` succeeds because the
comparison allows a `1e-9` slack. -/
theorem C3_counterexample :
    aget zeroStore.nodes "pi-001" = some zeroNode ∧
    isDown zeroNode = false ∧
    (effectiveCaps zeroNode).free_cpu_cores < safeFloat (some tinyReq.cpu_cores) 0 ∧
    (reserve zeroStore tinyReq).2 = ReserveOutcome.ok (resId 1) := by
  refine ⟨by decide, by decide, ?_, ?_⟩
  · simp [effectiveCaps, effCapsCore, zeroNode, nodeDynDefault, aget, safeFloat,
      maxQ, minQ, tinyReq]
  · simp [reserve, zeroStore, zeroNode, tinyReq, aget, isDown, truthy,
      nodeDynDefault, effectiveCaps, effCapsCore, safeFloat, maxQ, minQ, epsQ, pyAddNum]
    try norm_num

/-- Witness for C3 at a concrete store: reserving on an unknown node is
refused. -/
theorem C3_witness :
    (reserve demoStore { node := some "ws-404" }).2 = ReserveOutcome.refused :=
  (C3_reserve_contract demoStore { node := some "ws-404" } (by decide)).1.mpr
    (Or.inl (by decide))

/-- C10: on an existing, not-down node whose accounting fields are numeric,
the effective free capacities are never negative, an all-zero request
always succeeds returning the fresh `res-NNNNNNN` id, and more generally
any request within `1e-9` of the free capacities succeeds. -/
theorem C10_zero_request_reserve (s : Store) (req : ReserveReq) (name : String) (n : Node)
    (c1 c2 c3 : ℚ) (m : List (String × Resv))
    (hnode : req.node = some name) (hname : name ≠ "")
    (hget : aget s.nodes name = some n) (hdown : isDown n = false)
    (hc : aget n.dyn "used_cpu_cores" = some (.pynum c1))
    (hm : aget n.dyn "used_mem_gb" = some (.pynum c2))
    (hv : aget n.dyn "used_gpu_vram_gb" = some (.pynum c3))
    (hr : aget n.dyn "reservations" = some (.resmap m)) :
    (0 ≤ (effectiveCaps n).free_cpu_cores ∧ 0 ≤ (effectiveCaps n).free_mem_gb ∧
      0 ≤ (effectiveCaps n).free_gpu_vram_gb) ∧
    (req.cpu_cores = .pynum 0 → req.mem_gb = .pynum 0 → req.gpu_vram_gb = .pynum 0 →
      (reserve s req).2 = ReserveOutcome.ok (resId s.resSeq)) ∧
    (safeFloat (some req.cpu_cores) 0 ≤ (effectiveCaps n).free_cpu_cores + epsQ →
     safeFloat (some req.mem_gb) 0 ≤ (effectiveCaps n).free_mem_gb + epsQ →
     safeFloat (some req.gpu_vram_gb) 0 ≤ (effectiveCaps n).free_gpu_vram_gb + epsQ →
      (reserve s req).2 = ReserveOutcome.ok (resId s.resSeq)) := by
  have hfree : 0 ≤ (effectiveCaps n).free_cpu_cores ∧ 0 ≤ (effectiveCaps n).free_mem_gb ∧
      0 ≤ (effectiveCaps n).free_gpu_vram_gb := by
    refine ⟨?_, ?_, ?_⟩ <;> simp [effectiveCaps, effCapsCore, maxQ_eq]
  have hsucc : ∀ _ : safeFloat (some req.cpu_cores) 0 ≤ (effectiveCaps n).free_cpu_cores + epsQ,
      ∀ _ : safeFloat (some req.mem_gb) 0 ≤ (effectiveCaps n).free_mem_gb + epsQ,
      ∀ _ : safeFloat (some req.gpu_vram_gb) 0 ≤ (effectiveCaps n).free_gpu_vram_gb + epsQ,
      (reserve s req).2 = ReserveOutcome.ok (resId s.resSeq) := by
    intro hcpu hmem hvram
    rw [reserve_ok_spec s req name n c1 c2 c3 m hnode hname hget hdown hc hm hv hr
      (not_lt.mpr hcpu) (not_lt.mpr hmem) (not_lt.mpr hvram)]
  have heps : (0 : ℚ) < epsQ := by norm_num [epsQ]
  refine ⟨hfree, ?_, hsucc⟩
  intro hcz hmz hvz
  exact hsucc (by rw [hcz]; simp [safeFloat]; linarith [hfree.1])
    (by rw [hmz]; simp [safeFloat]; linarith [hfree.2.1])
    (by rw [hvz]; simp [safeFloat]; linarith [hfree.2.2])

def zeroReq : ReserveReq :=
  { node := some "pi-001", cpu_cores := .pynum 0, mem_gb := .pynum 0, gpu_vram_gb := .pynum 0 }

/-- Witness for C10: an all-zero reservation on the zero-capacity node
succeeds. -/
theorem C10_witness :
    (reserve zeroStore zeroReq).2 = ReserveOutcome.ok (resId 1) :=
  (C10_zero_request_reserve zeroStore _ "pi-001" zeroNode 0 0 0 []
    rfl (by decide) (by decide) (by decide) (by decide) (by decide) (by decide)
    (by decide)).2.1 rfl rfl rfl

-- ---------------------------------------------------------------------
-- Claim C4
-- ---------------------------------------------------------------------

def emptyChangesObs : ObsPayload :=
  { typ := some "node", node := some "ws-001", changes := [] }

/-- C4 (code bug): an `apply_observation` call of node type with an empty
changes map leaves the store unchanged but raises: the source dedents
lines 413-416 out of the `elif typ == "link"` branch, so after the node
branch the local variable `link` is read while unbound and Python raises
`UnboundLocalError`, contradicting the claimed silent no-op (and the
spec's "malformed observations are dropped with a warning"). -/
theorem C4_empty_changes_observation_raises :
    applyObservation demoStore emptyChangesObs = (demoStore, ObsOutcome.err) := by decide

-- ---------------------------------------------------------------------
-- Claim C2: snapshot sharing
-- ---------------------------------------------------------------------

/-- A node of the addressed store model: the static `caps` cache plus a
*reference* to its dyn dict.  Mutable Python dicts are modelled by a heap
of object ids so that reference copying (what `snapshot` does at line 351,
`"dyn": dyn`) is distinguishable from deep copying (what
`nodes_for_planner` does with `copy.deepcopy`). -/
structure HNode where
  caps : Caps
  dynAddr : ℕ
deriving DecidableEq, Repr

structure HStore where
  heap : List (ℕ × Dyn)
  nodes : List (String × HNode)
deriving DecidableEq, Repr

def heapGet : List (ℕ × Dyn) → ℕ → Dyn
  | [], _ => []
  | (a', d) :: rest, a => if a' = a then d else heapGet rest a

def heapSet : List (ℕ × Dyn) → ℕ → Dyn → List (ℕ × Dyn)
  | [], a, d => [(a, d)]
  | (a', d') :: rest, a, d =>
      if a' = a then (a, d) :: rest else (a', d') :: heapSet rest a d

theorem heapGet_heapSet_self (h : List (ℕ × Dyn)) (a : ℕ) (d : Dyn) :
    heapGet (heapSet h a d) a = d := by
  induction h with
  | nil => simp [heapSet, heapGet]
  | cons hd tl ih =>
    obtain ⟨a', d'⟩ := hd
    by_cases hak : a' = a
    · simp [heapSet, hak, heapGet]
    · simp [heapSet, hak, heapGet, ih]

/-- One per-node entry of the `snapshot()` result, restricted to the parts
the claim tests: the name, the (shared) dyn reference, and the freshly
computed `effective` dict. -/
structure SnapNode where
  name : String
  dynAddr : ℕ
  effective : EffCaps
deriving DecidableEq, Repr

structure SnapView where
  ts : ℤ
  nodes : List SnapNode
deriving DecidableEq, Repr

/-- `DTState.snapshot` (lines 334-353) over the addressed store: a fresh
outer list whose entries pair the node name with the *same* dyn reference
the store holds (`"dyn": dyn` copies the reference, not the dict) and a
fresh `effective` dict computed by `_effective_caps`.  The millisecond
timestamp `utc_ms()` is passed in as `now`. -/
def snapshotH (s : HStore) (now : ℤ) : SnapView :=
  { ts := now,
    nodes := s.nodes.map fun kv =>
      { name := kv.1, dynAddr := kv.2.dynAddr,
        effective := effCapsCore kv.2.caps (heapGet s.heap kv.2.dynAddr) } }

def c2store : HStore :=
  { heap := [(0, nodeDynDefault)],
    nodes := [("ws-001", { caps := ⟨16, 8, 32, 8⟩, dynAddr := 0 })] }

/-- The heap after a client mutates the snapshot it received:
`snap["nodes"][0]["dyn"]["down"] = True`. -/
def c2mutatedHeap : List (ℕ × Dyn) :=
  let a := ((snapshotH c2store 0).nodes.map SnapNode.dynAddr).headD 99
  heapSet c2store.heap a (aset (heapGet c2store.heap a) "down" (.pybool true))

/-- C2 counterexample: mutating the dyn dict reached through the returned
snapshot changes what the store itself reads for node `ws-001` — the
snapshot is not deep-independent. -/
theorem C2_counterexample :
    heapGet c2mutatedHeap ((c2store.nodes.map (fun kv => kv.2.dynAddr)).headD 98) ≠
      heapGet c2store.heap ((c2store.nodes.map (fun kv => kv.2.dynAddr)).headD 98) := by
  decide

/-- C2 (amended): `snapshot` returns a point-in-time view — it carries the
passed millisecond timestamp and per-node `effective` capacities computed
at call time in fresh dicts — but it is not deep-copied: every snapshot
entry shares the store node's dyn reference, and writing through that
shared reference is visible to the store (third conjunct). -/
theorem C2_snapshot_shares_dyn (s : HStore) (now : ℤ) (nm : String) (n : HNode)
    (hget : aget s.nodes nm = some n) :
    (snapshotH s now).ts = now ∧
    (∃ e ∈ (snapshotH s now).nodes, e.name = nm ∧ e.dynAddr = n.dynAddr ∧
       e.effective = effCapsCore n.caps (heapGet s.heap n.dynAddr)) ∧
    (∀ d', heapGet (heapSet s.heap n.dynAddr d') n.dynAddr = d') := by
  refine ⟨rfl, ?_, fun d' => heapGet_heapSet_self s.heap n.dynAddr d'⟩
  refine ⟨{ name := nm, dynAddr := n.dynAddr,
            effective := effCapsCore n.caps (heapGet s.heap n.dynAddr) }, ?_, rfl, rfl, rfl⟩
  have hmem := aget_mem s.nodes nm n hget
  exact List.mem_map.mpr ⟨(nm, n), hmem, rfl⟩

/-- Witness for C2 at the concrete one-node store. -/
theorem C2_witness :
    (snapshotH c2store 5).ts = 5 ∧
    (∃ e ∈ (snapshotH c2store 5).nodes, e.name = "ws-001" ∧ e.dynAddr = 0 ∧
       e.effective = effCapsCore (⟨16, 8, 32, 8⟩ : Caps) (heapGet c2store.heap 0)) ∧
    (∀ d', heapGet (heapSet c2store.heap 0 d') 0 = d') :=
  C2_snapshot_shares_dyn c2store 5 "ws-001" { caps := ⟨16, 8, 32, 8⟩, dynAddr := 0 }
    (by decide)

-- ---------------------------------------------------------------------
-- Cost model (dt/cost_model.py): DEFAULTS and per-pair functions
-- ---------------------------------------------------------------------

def WASM_PENALTY : ℚ := 135 / 100
def CUDA_BASE_BOOST : ℚ := 1
def CUDA_MAX_BOOST : ℚ := 6
def NPU_TOPS_BOOST_DIV : ℚ := 10
def NPU_MAX_BOOST : ℚ := 3
def PROTO_OVERHEAD : ℚ := 85 / 100
def LOSS_PENALTY_CEIL : ℚ := 30 / 100
def DEFAULT_LINK_SPEED_GBPS : ℚ := 1
def DEFAULT_RTT_MS : ℚ := 5
def DEFAULT_JITTER_MS : ℚ := 1 / 2
def SLO_ALPHA : ℚ := 12 / 10
def SLO_BETA : ℚ := 2 / 1000

/-- The stage fields the verified functions read: format constraints and
the `resources` sub-dict (raw values, passed through `safe_float`). -/
structure Stage where
  allowed_formats : List String := []
  disallowed_formats : List String := []
  res_cpu_cores : PyVal := .pynone
  res_mem_gb : PyVal := .pynone
  res_gpu_vram_gb : PyVal := .pynone
deriving DecidableEq, Repr

/-- Nonempty intersection of two format lists (Python `bool(a & b)` on the
corresponding sets). -/
def formatsInter (a b : List String) : Bool := a.any fun x => b.contains x

/-- Python `set(allowed) == {"wasm"}`. -/
def setIsWasmOnly (allowed : List String) : Bool :=
  decide (allowed ≠ []) && allowed.all fun f => f == "wasm"

/-- The guard of the wasm-penalty branch of `CostModel._accel_multiplier`
(line 192): node offers wasm, and either wasm is the only allowed format
or wasm is allowed while native is not. -/
def wasmDivisionCond (n : Node) (st : Stage) : Bool :=
  n.formats_supported.contains "wasm" &&
    (setIsWasmOnly st.allowed_formats ||
      (st.allowed_formats.contains "wasm" && !(st.allowed_formats.contains "native")))

/-- The cuda/npu boost part of `_accel_multiplier` (lines 177-189):
start at 1, take the max with the clamped cuda boost and the clamped npu
boost when the format is offered, not disallowed, and allowed. -/
def accelBase (n : Node) (st : Stage) : ℚ :=
  let fmts := n.formats_supported
  let allowed := st.allowed_formats
  let disallowed := st.disallowed_formats
  let mult : ℚ := 1
  let mult :=
    if fmts.contains "cuda" && !(disallowed.contains "cuda") &&
        (decide (allowed = []) || allowed.contains "cuda") then
      maxQ mult (clampQ (CUDA_BASE_BOOST *
        (1 + safeFloat (aget n.gpu "accel_score") 0 / 10)) 1 CUDA_MAX_BOOST)
    else mult
  let mult :=
    if fmts.contains "npu" && !(disallowed.contains "npu") &&
        (decide (allowed = []) || allowed.contains "npu") then
      maxQ mult (clampQ
        (1 + safeFloat (aget n.accelerators "npu_tops") 0 / NPU_TOPS_BOOST_DIV) 1 NPU_MAX_BOOST)
    else mult
  mult

/-- `CostModel._accel_multiplier`: early 0.5 when an allowed set exists
and the node supports none of it; otherwise the boost, divided by
`WASM_PENALTY` when the wasm branch fires. -/
def accelMultiplier (n : Node) (st : Stage) : ℚ :=
  if st.allowed_formats ≠ [] ∧ formatsInter n.formats_supported st.allowed_formats = false
    then 1 / 2
  else if wasmDivisionCond n st then accelBase n st / WASM_PENALTY
  else accelBase n st

/-- The effective-metrics dict of `DTState._effective_link`. -/
structure EffLink where
  down : Bool
  speed_gbps : ℚ
  rtt_ms : ℚ
  jitter_ms : ℚ
  loss_pct : ℚ
  ecn : Bool
deriving DecidableEq, Repr

/-- `pick` inside `_effective_link`: dyn value if present and not `None`,
else base, else `defaults["network"][key]` (even if `None` there, matching
`dict.get`), else the default value. -/
def notNoneOpt : Option PyVal → Option PyVal
  | some .pynone => none
  | some v => some v
  | none => none

def pickMetric (l : Link) (nd : Dyn) (k : String) (dv : PyVal) : PyVal :=
  match notNoneOpt (aget l.dyn k) with
  | some v => v
  | none =>
    match notNoneOpt (aget l.base k) with
    | some v => v
    | none => (aget nd k).getD dv

/-- `DTState._effective_link`. -/
def effectiveLink (s : Store) (l : Link) : EffLink :=
  { down := truthy ((aget l.dyn "down").getD (.pybool false))
    speed_gbps := safeFloat (some (pickMetric l s.defaultsNetwork "speed_gbps" (.pynum 1))) 1
    rtt_ms := safeFloat (some (pickMetric l s.defaultsNetwork "rtt_ms" (.pynum 5))) 5
    jitter_ms := safeFloat (some (pickMetric l s.defaultsNetwork "jitter_ms" (.pynum (1/2)))) (1/2)
    loss_pct := safeFloat (some (pickMetric l s.defaultsNetwork "loss_pct" (.pynum 0))) 0
    ecn := truthy (pickMetric l s.defaultsNetwork "ecn" (.pybool false)) }

/-- The metrics dict of `CostModel._effective_link_metrics`. -/
structure LinkMetrics where
  speed_gbps : ℚ
  rtt_ms : ℚ
  jitter_ms : ℚ
  loss_pct : ℚ
  down : Bool
deriving DecidableEq, Repr

/-- `CostModel._effective_link_metrics`: the state link's effective
metrics when the link exists, else the topology network defaults with the
cost-model defaults as fallback (`down = False`). -/
def effectiveLinkMetrics (s : Store) (a b : String) : LinkMetrics :=
  match aget s.links (linkKeyStr a b) with
  | some l =>
      let eff := effectiveLink s l
      { speed_gbps := eff.speed_gbps, rtt_ms := eff.rtt_ms, jitter_ms := eff.jitter_ms,
        loss_pct := eff.loss_pct, down := eff.down }
  | none =>
      { speed_gbps := safeFloat (aget s.defaultsNetwork "speed_gbps") DEFAULT_LINK_SPEED_GBPS,
        rtt_ms := safeFloat (aget s.defaultsNetwork "rtt_ms") DEFAULT_RTT_MS,
        jitter_ms := safeFloat (aget s.defaultsNetwork "jitter_ms") DEFAULT_JITTER_MS,
        loss_pct := safeFloat (aget s.defaultsNetwork "loss_pct") 0,
        down := false }

/-- A cost-model time in milliseconds: finite, or the float `inf`. -/
inductive TimeMs where
  | fin (q : ℚ)
  | inf
deriving DecidableEq, Repr

/-- `CostModel.transfer_time_ms`. -/
def transfer_time_ms (s : Store) (src dst : String) (size_mb : ℚ) : TimeMs :=
  if size_mb ≤ 0 ∨ src = dst then .fin 0
  else
    let m := effectiveLinkMetrics s src dst
    if m.down then .inf
    else
      let mbps_phy := m.speed_gbps * 1000
      let loss_pen := 1 - clampQ (m.loss_pct / 100) 0 LOSS_PENALTY_CEIL
      let eff_mbps := mbps_phy * PROTO_OVERHEAD * loss_pen
      .fin ((size_mb * 8) / maxQ 1 eff_mbps * 1000 + m.rtt_ms + m.jitter_ms)

-- ---------------------------------------------------------------------
-- Claim C7
-- ---------------------------------------------------------------------

/-- The transfer-time function in the words of claim C7: 0 when src = dst
or the size is not positive; +инf when the link between src and dst is
down (for positive sizes); otherwise
`size_mb·8 / max(1, eff_mbps) · 1000 + rtt_ms + jitter_ms` with
`eff_mbps = speed_gbps·1000 · 0.85 · (1 − clamp(loss_pct/100, 0, 0.30))`. -/
def transferTimeSpec (s : Store) (src dst : String) (size_mb : ℚ) : TimeMs :=
  if src = dst ∨ size_mb ≤ 0 then .fin 0
  else if (effectiveLinkMetrics s src dst).down then .inf
  else
    let m := effectiveLinkMetrics s src dst
    let eff_mbps := m.speed_gbps * 1000 * (85 / 100) * (1 - clampQ (m.loss_pct / 100) 0 (30 / 100))
    .fin (size_mb * 8 / maxQ 1 eff_mbps * 1000 + m.rtt_ms + m.jitter_ms)

/-- C7: `transfer_time_ms` agrees with the claimed case description and
formula at every store, node pair and size. -/
theorem C7_transfer_time_spec (s : Store) (src dst : String) (size_mb : ℚ) :
    transfer_time_ms s src dst size_mb = transferTimeSpec s src dst size_mb := by
  unfold transfer_time_ms transferTimeSpec
  by_cases h1 : size_mb ≤ 0 ∨ src = dst
  · rw [if_pos h1, if_pos (or_comm.mp h1)]
  · rw [if_neg h1, if_neg (fun hc => h1 (or_comm.mp hc))]
    by_cases h2 : (effectiveLinkMetrics s src dst).down = true
    · rw [if_pos h2, if_pos h2]
    · rw [if_neg h2, if_neg h2]
      rfl

-- ---------------------------------------------------------------------
-- Claim C6
-- ---------------------------------------------------------------------

theorem wasmDivisionCond_iff (n : Node) (st : Stage) :
    wasmDivisionCond n st = true ↔
      ("wasm" ∈ n.formats_supported ∧ "wasm" ∈ st.allowed_formats ∧
        "native" ∉ st.allowed_formats) := by
  unfold wasmDivisionCond setIsWasmOnly
  generalize n.formats_supported = fmts
  generalize st.allowed_formats = allowed
  simp
  intro hw hne hall
  constructor
  · cases allowed with
    | nil => exact absurd rfl hne
    | cons x xs =>
      have hx := hall x (List.mem_cons_self x xs)
      rw [← hx]
      exact List.mem_cons_self _ _
  · intro hnat
    have := hall _ hnat
    simp at this

/-- C6 (amended): the division by `WASM_PENALTY` is applied exactly when
the node supports wasm, wasm is in `allowed_formats`, and native is not —
not only when wasm is the sole allowed format; and whenever the branch
fires the multiplier is the cuda/npu boost divided by `WASM_PENALTY`
(the early 0.5 return cannot co-occur with the branch). -/
theorem C6_wasm_division_characterisation (n : Node) (st : Stage) :
    (wasmDivisionCond n st = true ↔
      ("wasm" ∈ n.formats_supported ∧ "wasm" ∈ st.allowed_formats ∧
        "native" ∉ st.allowed_formats)) ∧
    (wasmDivisionCond n st = true →
      accelMultiplier n st = accelBase n st / WASM_PENALTY) ∧
    (wasmDivisionCond n st = false →
      accelMultiplier n st = accelBase n st ∨ accelMultiplier n st = 1 / 2) := by
  refine ⟨wasmDivisionCond_iff n st, ?_, ?_⟩
  · intro h
    obtain ⟨hw, ha, -⟩ := (wasmDivisionCond_iff n st).mp h
    unfold accelMultiplier
    rw [if_neg, if_pos h]
    rintro ⟨-, hinter⟩
    have : formatsInter n.formats_supported st.allowed_formats = true := by
      unfold formatsInter
      rw [List.any_eq_true]
      exact ⟨"wasm", hw, List.elem_iff.mpr ha⟩
    rw [this] at hinter
    cases hinter
  · intro h
    unfold accelMultiplier
    by_cases h1 : st.allowed_formats ≠ [] ∧
        formatsInter n.formats_supported st.allowed_formats = false
    · rw [if_pos h1]
      exact Or.inr rfl
    · rw [if_neg h1, if_neg (fun hc => by rw [h] at hc; cases hc)]
      exact Or.inl rfl

def wasmNode : Node :=
  { formats_supported := ["wasm", "cuda"], gpu := [("accel_score", .pynum 0)],
    accelerators := [], caps := ⟨16, 8, 32, 8⟩, dyn := nodeDynDefault }

def wasmStage : Stage := { allowed_formats := ["wasm", "cuda"] }

def nativeNode : Node :=
  { formats_supported := ["native"], gpu := [], accelerators := [],
    caps := ⟨16, 8, 32, 8⟩, dyn := nodeDynDefault }

def wasmOnlyStage : Stage := { allowed_formats := ["wasm"] }

/-- C6 counterexample, both directions: with `allowed = {wasm, cuda}` on a
node supporting both, wasm is not the only allowed format yet the penalty
branch fires and the multiplier is `1 / 1.35 = 20/27`; with
`allowed = {wasm}` on a node without wasm support, wasm is the only
allowed format yet the branch does not fire (the result is the early 0.5
return). -/
theorem C6_counterexample :
    wasmDivisionCond wasmNode wasmStage = true ∧
    setIsWasmOnly wasmStage.allowed_formats = false ∧
    accelMultiplier wasmNode wasmStage = 20 / 27 ∧
    wasmDivisionCond nativeNode wasmOnlyStage = false ∧
    setIsWasmOnly wasmOnlyStage.allowed_formats = true ∧
    accelMultiplier nativeNode wasmOnlyStage = 1 / 2 := by
  refine ⟨by decide, by decide, ?_, by decide, by decide, ?_⟩
  · simp [accelMultiplier, wasmDivisionCond, setIsWasmOnly, accelBase, formatsInter,
      wasmNode, wasmStage, clampQ, maxQ, minQ, safeFloat, aget, WASM_PENALTY,
      CUDA_BASE_BOOST, CUDA_MAX_BOOST]
    try norm_num
  · simp [accelMultiplier, formatsInter, wasmOnlyStage, nativeNode]

-- ---------------------------------------------------------------------
-- Claim C8
-- ---------------------------------------------------------------------

/-- `ratio` inside `CostModel.slo_penalty`:
`clamp(latency_ms / max(1.0, deadline_ms), 0.0, 100.0)`. -/
def sloRatio (deadline_ms latency_ms : ℚ) : ℚ :=
  clampQ (latency_ms / maxQ 1 deadline_ms) 0 100

/-- `CostModel.slo_penalty`.  The float guard `not isfinite(latency_ms)`
cannot arise over exact rationals and is omitted; `ratio ** SLO_ALPHA` is
real exponentiation, so the result lives in ℝ. -/
noncomputable def slo_penalty (deadline_ms latency_ms : ℚ) : ℝ :=
  if deadline_ms ≤ 0 then 0
  else if sloRatio deadline_ms latency_ms ≤ 1 then 0
  else (((sloRatio deadline_ms latency_ms : ℚ) : ℝ) ^ ((SLO_ALPHA : ℚ) : ℝ) - 1) /
    ((maxQ (1 / 1000000) SLO_BETA : ℚ) : ℝ)

/-- The per-claim penalty formula as the claim words it:
`((min(latency/deadline, 100))^1.2 − 1) / 0.002`. -/
noncomputable def sloClaimValue (deadline_ms latency_ms : ℚ) : ℝ :=
  (((minQ (latency_ms / deadline_ms) 100 : ℚ) : ℝ) ^ ((SLO_ALPHA : ℚ) : ℝ) - 1) /
    ((SLO_BETA : ℚ) : ℝ)

theorem sloRatio_le_one_iff (D L : ℚ) (hD : 0 < maxQ 1 D) :
    sloRatio D L ≤ 1 ↔ L ≤ maxQ 1 D := by
  unfold sloRatio clampQ
  rw [maxQ_eq, minQ_eq]
  constructor
  · intro h
    have h1 : min 100 (L / maxQ 1 D) ≤ 1 := le_trans (le_max_right _ _) h
    have h2 : L / maxQ 1 D ≤ 1 := by
      rcases min_le_iff.mp h1 with h' | h'
      · norm_num at h'
      · exact h'
    exact (div_le_one hD).mp h2
  · intro h
    have h2 : L / maxQ 1 D ≤ 1 := (div_le_one hD).mpr h
    rw [max_le_iff]
    exact ⟨by norm_num, le_trans (min_le_right _ _) h2⟩

theorem sloRatio_nonneg (D L : ℚ) : 0 ≤ sloRatio D L := by
  unfold sloRatio clampQ
  rw [maxQ_eq]
  exact le_max_left _ _

theorem sloRatio_mono (D L L₂ : ℚ) (hD : 0 < maxQ 1 D) (h : L ≤ L₂) :
    sloRatio D L ≤ sloRatio D L₂ := by
  unfold sloRatio clampQ
  rw [maxQ_eq, maxQ_eq, minQ_eq, minQ_eq]
  exact max_le_max (le_refl _) (min_le_min (le_refl _)
    ((div_le_div_iff_of_pos_right hD).mpr h))

theorem sloRatio_pos_form (D L : ℚ) (hD : 0 < maxQ 1 D) (h : maxQ 1 D < L) :
    sloRatio D L = minQ (L / maxQ 1 D) 100 := by
  unfold sloRatio clampQ
  rw [maxQ_eq, minQ_eq, minQ_eq, min_comm]
  apply max_eq_right
  apply le_min
  · exact div_nonneg (le_of_lt (lt_trans hD h)) (le_of_lt hD)
  · norm_num

/-- C8 (amended): the code divides latency by `max(1, deadline)`, not by
the deadline itself.  For every positive deadline D and latency L:
the penalty is 0 when L ≤ max(1, D); when max(1, D) < L it equals
`((min(L/max(1,D), 100))^1.2 − 1) / 0.002` and is strictly positive; and
it is monotonically nondecreasing in the latency.  (For D ≤ 0 the penalty
is 0, as claimed.) -/
theorem C8_slo_penalty_contract (D L : ℚ) :
    (D ≤ 0 → slo_penalty D L = 0) ∧
    (0 < D → L ≤ maxQ 1 D → slo_penalty D L = 0) ∧
    (0 < D → maxQ 1 D < L →
      slo_penalty D L =
        (((minQ (L / maxQ 1 D) 100 : ℚ) : ℝ) ^ ((SLO_ALPHA : ℚ) : ℝ) - 1) /
          ((SLO_BETA : ℚ) : ℝ) ∧
      0 < slo_penalty D L) ∧
    (0 < D → ∀ L₂, L ≤ L₂ → slo_penalty D L ≤ slo_penalty D L₂) := by
  have hm1 : (1 : ℚ) ≤ maxQ 1 D := by rw [maxQ_eq]; exact le_max_left _ _
  have hm0 : (0 : ℚ) < maxQ 1 D := lt_of_lt_of_le one_pos hm1
  have hbeta : (maxQ (1 / 1000000) SLO_BETA : ℚ) = SLO_BETA := by
    norm_num [maxQ, SLO_BETA]
  have hbetaR : (0 : ℝ) < ((SLO_BETA : ℚ) : ℝ) := by norm_num [SLO_BETA]
  have halpha : (0 : ℝ) < ((SLO_ALPHA : ℚ) : ℝ) := by norm_num [SLO_ALPHA]
  have hval : ∀ L', maxQ 1 D < L' → 0 < D →
      slo_penalty D L' =
        (((sloRatio D L' : ℚ) : ℝ) ^ ((SLO_ALPHA : ℚ) : ℝ) - 1) / ((SLO_BETA : ℚ) : ℝ) ∧
      1 < sloRatio D L' := by
    intro L' hL' hD
    have hr1 : ¬ sloRatio D L' ≤ 1 := by
      rw [sloRatio_le_one_iff D L' hm0]
      exact not_le.mpr hL'
    constructor
    · unfold slo_penalty
      rw [if_neg (not_le.mpr hD), if_neg hr1, hbeta]
    · exact not_le.mp hr1
  have hpos : ∀ L', maxQ 1 D < L' → 0 < D → 0 < slo_penalty D L' := by
    intro L' hL' hD
    obtain ⟨heq, hgt⟩ := hval L' hL' hD
    rw [heq]
    apply div_pos _ hbetaR
    rw [sub_pos]
    refine (Real.one_lt_rpow_iff_of_pos ?_).mpr (Or.inl ⟨?_, halpha⟩)
    · exact_mod_cast lt_trans zero_lt_one hgt
    · exact_mod_cast hgt
  have hzero : ∀ L', 0 < D → L' ≤ maxQ 1 D → slo_penalty D L' = 0 := by
    intro L' hD hle
    unfold slo_penalty
    rw [if_neg (not_le.mpr hD), if_pos ((sloRatio_le_one_iff D L' hm0).mpr hle)]
  refine ⟨?_, fun hD hle => hzero L hD hle, ?_, ?_⟩
  · intro hD
    unfold slo_penalty
    rw [if_pos hD]
  · intro hD hlt
    obtain ⟨heq, -⟩ := hval L hlt hD
    refine ⟨?_, hpos L hlt hD⟩
    rw [heq, sloRatio_pos_form D L hm0 hlt]
  · intro hD L₂ hL
    have hr := sloRatio_mono D L L₂ hm0 hL
    by_cases hb2 : sloRatio D L₂ ≤ 1
    · rw [hzero L hD ((sloRatio_le_one_iff D L hm0).mp (le_trans hr hb2)),
        hzero L₂ hD ((sloRatio_le_one_iff D L₂ hm0).mp hb2)]
    · have hL2 : maxQ 1 D < L₂ := by
        rw [sloRatio_le_one_iff D L₂ hm0] at hb2
        exact not_le.mp hb2
      by_cases hb1 : sloRatio D L ≤ 1
      · rw [hzero L hD ((sloRatio_le_one_iff D L hm0).mp hb1)]
        exact le_of_lt (hpos L₂ hL2 hD)
      · have hL1 : maxQ 1 D < L := by
          rw [sloRatio_le_one_iff D L hm0] at hb1
          exact not_le.mp hb1
        obtain ⟨heq1, -⟩ := hval L hL1 hD
        obtain ⟨heq2, -⟩ := hval L₂ hL2 hD
        rw [heq1, heq2]
        apply (div_le_div_iff_of_pos_right hbetaR).mpr
        apply sub_le_sub_right
        apply Real.rpow_le_rpow
        · exact_mod_cast sloRatio_nonneg D L
        · exact_mod_cast hr
        · exact le_of_lt halpha

/-- C8 counterexample: with deadline 0.5 ms (positive) and latency
0.75 ms (beyond the deadline), the claim's formula gives the strictly
positive value `((min(1.5, 100))^1.2 − 1)/0.002`, but the code divides by
`max(1, deadline)` and returns 0. -/
theorem C8_counterexample :
    (0 : ℚ) < 1 / 2 ∧ ¬ ((3 : ℚ) / 4 ≤ 1 / 2) ∧
    slo_penalty (1 / 2) (3 / 4) = 0 ∧ 0 < sloClaimValue (1 / 2) (3 / 4) := by
  refine ⟨by norm_num, by norm_num, ?_, ?_⟩
  · have h0 : (0 : ℚ) < maxQ 1 (1 / 2) := by norm_num [maxQ]
    have hr : sloRatio (1 / 2) (3 / 4) ≤ 1 := by
      rw [sloRatio_le_one_iff _ _ h0]
      norm_num [maxQ]
    unfold slo_penalty
    rw [if_neg (by norm_num), if_pos hr]
  · unfold sloClaimValue
    have hmin : (minQ ((3 : ℚ) / 4 / (1 / 2)) 100 : ℚ) = 3 / 2 := by norm_num [minQ]
    rw [hmin]
    apply div_pos _ (by norm_num [SLO_BETA])
    rw [sub_pos]
    refine (Real.one_lt_rpow_iff_of_pos (by norm_num)).mpr
      (Or.inl ⟨by norm_num, by norm_num [SLO_ALPHA]⟩)

/-- Witness for C8 at the spec's own example deadline of 1000 ms. -/
theorem C8_witness :
    slo_penalty 1000 1000 = 0 ∧ 0 < slo_penalty 1000 2000 := by
  constructor
  · exact (C8_slo_penalty_contract 1000 1000).2.1 (by norm_num) (by norm_num [maxQ])
  · exact ((C8_slo_penalty_contract 1000 2000).2.2.1 (by norm_num)
      (by norm_num [maxQ])).2

-- ---------------------------------------------------------------------
-- Greedy planner (dt/policy/greedy.py) and claim C5
-- ---------------------------------------------------------------------

/-- `DEFAULT_CFG` of the greedy planner; field defaults are the source's
defaults, in particular `require_format_match = False`. -/
structure GreedyCfg where
  risk_weight : ℚ := 10
  energy_weight : ℚ := 0
  prefer_locality_bonus_ms : ℚ := 0
  require_format_match : Bool := false
deriving Repr

/-- `_supports_formats(node, stage)`: no intersection with disallowed,
and (empty allowed, or intersection with allowed non-empty). -/
def supportsFormats (n : Node) (st : Stage) : Bool :=
  if formatsInter st.disallowed_formats n.formats_supported then false
  else if st.allowed_formats.isEmpty then true
  else formatsInter n.formats_supported st.allowed_formats

/-- `_fits(state, node, stage)`: not down, and every free effective
capacity at least the demand minus the `1e-9` tolerance. -/
def fits (n : Node) (st : Stage) : Bool :=
  if truthy ((aget n.dyn "down").getD (.pybool false)) then false
  else
    let caps := effCapsCore n.caps n.dyn
    let needCpu := safeFloat (some st.res_cpu_cores) 0
    let needMem := safeFloat (some st.res_mem_gb) 0
    let needVram := safeFloat (some st.res_gpu_vram_gb) 0
    if caps.free_cpu_cores + epsQ < needCpu then false
    else if caps.free_mem_gb + epsQ < needMem then false
    else if caps.free_gpu_vram_gb + epsQ < needVram then false
    else true

/-- Abstraction of the numeric part of `GreedyPlanner._score_candidate`
(lines 148-176): the compute + transfer + weighted risk/energy aggregate
for a stage, candidate and previous node, possibly infinite (`⊤`, e.g.
from an infinite compute time).  Claim C5 concerns which nodes can be
chosen and how the minimum is taken, which holds for *every* such
aggregate, so the theorems quantify over the function; the
format-feasibility gate of lines 145-146 is modelled explicitly in
`scoreCandidate`. -/
abbrev ScoreFn := Stage → String → Node → Option String → WithTop ℚ

/-- `_score_candidate` including the gate of lines 145-146: with
`require_format_match` set, a format mismatch scores infinite. -/
def scoreCandidate (f : ScoreFn) (cfg : GreedyCfg) (st : Stage) (name : String)
    (n : Node) (prev : Option String) : WithTop ℚ :=
  if cfg.require_format_match && !(supportsFormats n st) then ⊤
  else f st name n prev

/-- The comparison step inside the candidate scan: keep the strictly
smaller score (`sc < best_score` keeps the first winner on ties).  The
source's local `sc` is inlined. -/
def scanStep (f : ScoreFn) (cfg : GreedyCfg) (st : Stage) (prev : Option String)
    (best : Option String × WithTop ℚ) (kv : String × Node) :
    Option String × WithTop ℚ :=
  if fits kv.2 st then
    if scoreCandidate f cfg st kv.1 kv.2 prev < best.2 then
      (some kv.1, scoreCandidate f cfg st kv.1 kv.2 prev)
    else best
  else best

/-- The candidate scan of `plan_job` (lines 216-235): fold over the node
map in iteration order, skipping nodes that fail `_fits`. -/
def scanCandidates (f : ScoreFn) (cfg : GreedyCfg) (nodes : List (String × Node))
    (st : Stage) (prev : Option String) : Option String × WithTop ℚ :=
  nodes.foldl (scanStep f cfg st prev) (none, ⊤)

/-- Lines 236-240: no candidate, or an infinite best score, means the
stage has no feasible node; otherwise the winner is chosen. -/
def chooseNode (f : ScoreFn) (cfg : GreedyCfg) (nodes : List (String × Node))
    (st : Stage) (prev : Option String) : Option String :=
  let best := scanCandidates f cfg nodes st prev
  if best.1 = none ∨ best.2 = ⊤ then none else best.1

theorem scanFold_spec (f : ScoreFn) (cfg : GreedyCfg) (st : Stage) (prev : Option String)
    (nodes : List (String × Node)) (init : Option String × WithTop ℚ) :
    (nodes.foldl (scanStep f cfg st prev) init = init ∨
      ∃ nm n, (nm, n) ∈ nodes ∧ fits n st = true ∧
        nodes.foldl (scanStep f cfg st prev) init =
          (some nm, scoreCandidate f cfg st nm n prev)) ∧
    (nodes.foldl (scanStep f cfg st prev) init).2 ≤ init.2 ∧
    (∀ nm n, (nm, n) ∈ nodes → fits n st = true →
      (nodes.foldl (scanStep f cfg st prev) init).2 ≤
        scoreCandidate f cfg st nm n prev) := by
  induction nodes generalizing init with
  | nil =>
    refine ⟨Or.inl rfl, le_refl _, ?_⟩
    intro nm n h
    simp at h
  | cons kv rest ih =>
    rw [List.foldl_cons]
    obtain ⟨ih1, ih2, ih3⟩ := ih (scanStep f cfg st prev init kv)
    have hle : (scanStep f cfg st prev init kv).2 ≤ init.2 := by
      unfold scanStep
      by_cases hf : fits kv.2 st = true
      · rw [if_pos hf]
        by_cases hsc : scoreCandidate f cfg st kv.1 kv.2 prev < init.2
        · rw [if_pos hsc]
          exact le_of_lt hsc
        · rw [if_neg hsc]
      · rw [if_neg hf]
    have hcases : scanStep f cfg st prev init kv = init ∨
        (fits kv.2 st = true ∧ scanStep f cfg st prev init kv =
          (some kv.1, scoreCandidate f cfg st kv.1 kv.2 prev)) := by
      unfold scanStep
      by_cases hf : fits kv.2 st = true
      · by_cases hsc : scoreCandidate f cfg st kv.1 kv.2 prev < init.2
        · exact Or.inr ⟨hf, by rw [if_pos hf, if_pos hsc]⟩
        · exact Or.inl (by rw [if_pos hf, if_neg hsc])
      · exact Or.inl (by rw [if_neg hf])
    refine ⟨?_, le_trans ih2 hle, ?_⟩
    · rcases ih1 with h | ⟨nm, n, hmem, hfit, heq⟩
      · rcases hcases with hc | ⟨hf, hc⟩
        · exact Or.inl (h.trans hc)
        · exact Or.inr ⟨kv.1, kv.2, by simp, hf, h.trans hc⟩
      · exact Or.inr ⟨nm, n, List.mem_cons_of_mem _ hmem, hfit, heq⟩
    · intro nm n hmem hfit
      rcases List.mem_cons.mp hmem with heq | hmem2
      · have hkv : kv = (nm, n) := heq.symm
        subst hkv
        refine le_trans ih2 ?_
        unfold scanStep
        rw [if_pos hfit]
        by_cases hsc : scoreCandidate f cfg st nm n prev < init.2
        · rw [if_pos hsc]
        · rw [if_neg hsc]
          exact not_lt.mp hsc
      · exact ih3 nm n hmem2 hfit

/-- C5 (amended): whenever `plan_job`'s per-stage scan chooses a node, the
node passed `_fits` (not down, free capacity at least demand − 1e-9) and
its score is finite and minimal among all fitting nodes; format
compatibility additionally holds whenever `require_format_match` is set —
but it is *not* part of feasibility under the default configuration
(`require_format_match = False`), see the counterexample.  This holds for
every score aggregate. -/
theorem C5_choose_node_contract (f : ScoreFn) (cfg : GreedyCfg)
    (nodes : List (String × Node)) (st : Stage) (prev : Option String) (nm : String)
    (hchosen : chooseNode f cfg nodes st prev = some nm) :
    ∃ n, (nm, n) ∈ nodes ∧ fits n st = true ∧
      scoreCandidate f cfg st nm n prev ≠ ⊤ ∧
      (cfg.require_format_match = true → supportsFormats n st = true) ∧
      (∀ nm' n', (nm', n') ∈ nodes → fits n' st = true →
        scoreCandidate f cfg st nm n prev ≤ scoreCandidate f cfg st nm' n' prev) := by
  unfold chooseNode at hchosen
  by_cases hguard : (scanCandidates f cfg nodes st prev).1 = none ∨
      (scanCandidates f cfg nodes st prev).2 = ⊤
  · rw [if_pos hguard] at hchosen
    cases hchosen
  · rw [if_neg hguard] at hchosen
    push_neg at hguard
    obtain ⟨-, htop⟩ := hguard
    obtain ⟨h1, -, h3⟩ := scanFold_spec f cfg st prev nodes (none, ⊤)
    have hsceq : scanCandidates f cfg nodes st prev =
        nodes.foldl (scanStep f cfg st prev) (none, ⊤) := rfl
    rcases h1 with h | ⟨nm2, n, hmem, hfit, heq⟩
    · rw [hsceq, h] at hchosen
      cases hchosen
    · rw [hsceq, heq] at hchosen htop
      dsimp only at hchosen htop
      obtain rfl : nm2 = nm := Option.some_injective _ hchosen
      refine ⟨n, hmem, hfit, htop, ?_, ?_⟩
      · intro hreq
        by_contra hsup
        have hsupf : supportsFormats n st = false := by
          revert hsup
          cases supportsFormats n st <;> simp
        have hstop : scoreCandidate f cfg st nm2 n prev = ⊤ := by
          unfold scoreCandidate
          rw [hreq, hsupf]
          rfl
        exact htop hstop
      · intro nm' n' hmem' hfit'
        have hmin := h3 nm' n' hmem' hfit'
        rw [heq] at hmin
        exact hmin

def c5node : Node :=
  { formats_supported := ["native"], gpu := [], accelerators := [],
    caps := ⟨16, 8, 32, 8⟩, dyn := nodeDynDefault }

def c5stage : Stage := { disallowed_formats := ["native"] }

def c5score : ScoreFn := fun _ _ _ _ => (0 : WithTop ℚ)

/-- C5 counterexample: under the default configuration
(`require_format_match = False`) a node failing the claimed format
feasibility — its supported formats intersect the stage's
`disallowed_formats` — is nevertheless chosen for the stage.  (`c5score`
stands for the cost-model aggregate at these inputs; with a single
candidate its value cannot affect the choice.) -/
theorem c5_chosen :
    chooseNode c5score {} [("n1", c5node)] c5stage none = some "n1" := by
  simp [chooseNode, scanCandidates, scanStep, fits, c5node, c5stage, c5score,
    scoreCandidate, supportsFormats, formatsInter, effCapsCore, nodeDynDefault,
    aget, safeFloat, truthy, maxQ, minQ, epsQ]
  norm_num
  simp

theorem C5_counterexample :
    supportsFormats c5node c5stage = false ∧
    chooseNode c5score {} [("n1", c5node)] c5stage none = some "n1" :=
  ⟨by decide, c5_chosen⟩

/-- Witness for C5 at the concrete one-node store. -/
theorem C5_witness :
    ∃ n, ("n1", n) ∈ [("n1", c5node)] ∧ fits n c5stage = true ∧
      scoreCandidate c5score {} c5stage "n1" n none ≠ ⊤ ∧
      (({} : GreedyCfg).require_format_match = true → supportsFormats n c5stage = true) ∧
      (∀ nm' n', (nm', n') ∈ [("n1", c5node)] → fits n' c5stage = true →
        scoreCandidate c5score {} c5stage "n1" n none ≤
          scoreCandidate c5score {} c5stage nm' n' none) :=
  C5_choose_node_contract c5score {} [("n1", c5node)] c5stage none "n1" c5_chosen

-- ---------------------------------------------------------------------
-- sim/chaos.py: the chaos event schedule and the overrides store
-- ---------------------------------------------------------------------

/-- `ChaosEvent` from `sim/chaos.py` (a parsed YAML chaos entry).  The
`sort_index` mirror of `at_s` maintained by `__post_init__` only serves
sorting and is not duplicated here. -/
structure ChaosEvent where
  at_s : ℚ
  kind : String
  duration_s : ℚ := 0
  a : Option String := none
  b : Option String := none
  node : Option String := none
  label : Option String := none
  value : Option String := none
  value_b : Option String := none
  speed_gbps : Option ℚ := none
  rtt_ms : Option ℚ := none
  jitter_ms : Option ℚ := none
  loss_pct : Option ℚ := none
  ecn : Option Bool := none
  power_cap_w : Option ℚ := none
  thermal_derate : Option ℚ := none
  skew_ms : Option ℚ := none
  packet_dup : Option ℚ := none
  packet_reorder : Option ℚ := none
deriving DecidableEq, Repr

/-- `LINK_KINDS` (a Python set, used only for membership tests). -/
def LINK_KINDS : List String := ["link_degrade", "link_loss_spike", "link_down", "link_up"]

/-- `NODE_KINDS`. -/
def NODE_KINDS : List String :=
  ["node_kill", "node_recover", "power_cap", "thermal_derate", "clock_skew",
    "packet_dup", "packet_reorder"]

/-- `GROUP_KINDS`. -/
def GROUP_KINDS : List String := ["zone_blackout", "zone_recover", "federation_partition"]

/-- `LINK_KINDS | NODE_KINDS | GROUP_KINDS`, the union guarding revert
injection in `collect_chaos_events`. -/
def knownKinds : List String := LINK_KINDS ++ NODE_KINDS ++ GROUP_KINDS

/-- `ChaosEvent.end_time`: `at_s + duration_s` when `duration_s` is
truthy and positive, else `None`; over ℚ the guard is `0 < duration_s`. -/
def endTime (ev : ChaosEvent) : Option ℚ :=
  if 0 < ev.duration_s then some (ev.at_s + ev.duration_s) else none

/-- The synthetic revert marker injected by `collect_chaos_events`: only
the identity fields are copied, every modifier stays at its `None`
default. -/
def revertOf (ev : ChaosEvent) : ChaosEvent :=
  { at_s := ev.at_s + ev.duration_s
    kind := "__revert__::" ++ ev.kind
    duration_s := 0
    a := ev.a
    b := ev.b
    node := ev.node
    label := ev.label
    value := ev.value
    value_b := ev.value_b }

/-- `collect_chaos_events`, applied to the flat list of parsed events
(the YAML loading and scenario lookup producing that list are file I/O and
sit outside the model).  `events.sort()` on the `order=True` dataclass
orders by `sort_index = at_s` first and only breaks `at_s` ties with the
remaining fields, so its result is one of the stable-by-`at_s` orders; a
stable merge sort on `at_s` is used here. -/
def collectChaosEvents (raw : List ChaosEvent) : List ChaosEvent :=
  (raw.flatMap fun ev =>
      ev :: (if 0 < ev.duration_s ∧ ev.kind ∈ knownKinds then [revertOf ev] else [])).mergeSort
    (fun x y => decide (x.at_s ≤ y.at_s))

/-- The dict state of `OverridesStore`
(`{"links": {...}, "nodes": {...}}`).  Writing `overrides.json` and
posting to a DT endpoint are side effects outside the model. -/
structure OvStore where
  links : List (String × Dyn)
  nodes : List (String × Dyn)
deriving DecidableEq, Repr

/-- `cur.update(changes)` on a dict. -/
def dictUpdate (cur changes : Dyn) : Dyn :=
  changes.foldl (fun d kv => aset d kv.1 kv.2) cur

/-- The shared body of `link_apply` / `node_apply`:
`cur = state[sect].get(k, {}); cur.update(changes); state[sect][k] = cur`. -/
def storeApply (m : List (String × Dyn)) (k : String) (changes : Dyn) :
    List (String × Dyn) :=
  aset m k (dictUpdate ((aget m k).getD []) changes)

/-- The shared body of `link_revert` / `node_revert`: delete each listed
field that is present, then keep the entry if anything is left and drop it
(`state.pop(k, None)`) otherwise. -/
def storeRevert (m : List (String × Dyn)) (k : String) (fields : List String) :
    List (String × Dyn) :=
  if fields.foldl (fun d f => apop d f) ((aget m k).getD []) = [] then apop m k
  else aset m k (fields.foldl (fun d f => apop d f) ((aget m k).getD []))

/-- `OverridesStore.link_apply`. -/
def link_apply (s : OvStore) (a b : String) (changes : Dyn) : OvStore :=
  { s with links := storeApply s.links (linkKeyStr a b) changes }

/-- `OverridesStore.link_revert`. -/
def link_revert (s : OvStore) (a b : String) (fields : List String) : OvStore :=
  { s with links := storeRevert s.links (linkKeyStr a b) fields }

/-- `OverridesStore.node_apply`. -/
def node_apply (s : OvStore) (node : String) (changes : Dyn) : OvStore :=
  { s with nodes := storeApply s.nodes node changes }

/-- `OverridesStore.node_revert`. -/
def node_revert (s : OvStore) (node : String) (fields : List String) : OvStore :=
  { s with nodes := storeRevert s.nodes node fields }

/-- `ChaosEngine.label_index`, abstracted to its lookup function
`label ↦ value ↦ node names` (it is built once from the node descriptor
files, which sit outside the model; absent buckets give `[]`). -/
def LabelIndex : Type := String → String → List String

/-- `ChaosEngine._nodes_for`: `[]` when the label is falsy (`None` or
`""`) or the value is `None`. -/
def nodesFor (idx : LabelIndex) (label value : Option String) : List String :=
  match label, value with
  | some l, some v => if l = "" then [] else idx l v
  | _, _ => []

/-- Python truthiness of an `Optional[str]` (`None` and `""` are falsy). -/
def truthyStr : Option String → Bool
  | some s => decide (s ≠ "")
  | none => false

/-- `ChaosEngine._apply_zone_blackout`. -/
def applyZoneBlackout (idx : LabelIndex) (s : OvStore) (ev : ChaosEvent) : OvStore :=
  let nodes := nodesFor idx ev.label ev.value
  if nodes = [] then s
  else nodes.foldl (fun st n => node_apply st n [("down", .pybool true)]) s

/-- `ChaosEngine._apply_zone_recover`. -/
def applyZoneRecover (idx : LabelIndex) (s : OvStore) (ev : ChaosEvent) : OvStore :=
  let nodes := nodesFor idx ev.label ev.value
  if nodes = [] then s
  else nodes.foldl (fun st n => node_revert st n ["down"]) s

/-- The link override fields assembled by `_apply_federation_partition`,
defaulting to a 12 percent loss / 35 ms partition when no modifier is
given. -/
def fedFields (ev : ChaosEvent) : Dyn :=
  let fields : Dyn :=
    (match ev.speed_gbps with
      | some q => [("speed_gbps", PyVal.pynum (maxQ 0 q))]
      | none => []) ++
    (match ev.rtt_ms with
      | some q => [("rtt_ms", PyVal.pynum (maxQ 0 q))]
      | none => []) ++
    (match ev.jitter_ms with
      | some q => [("jitter_ms", PyVal.pynum (maxQ 0 q))]
      | none => []) ++
    (match ev.loss_pct with
      | some q => [("loss_pct", PyVal.pynum (maxQ 0 (minQ 100 q)))]
      | none => [])
  if fields = [] then [("loss_pct", PyVal.pynum 12), ("rtt_ms", PyVal.pynum 35)]
  else fields

/-- `label = ev.label or "federation"` in the federation actions. -/
def fedLabel (ev : ChaosEvent) : String :=
  match ev.label with
  | some l => if l = "" then "federation" else l
  | none => "federation"

/-- `ChaosEngine._apply_federation_partition`. -/
def applyFederationPartition (idx : LabelIndex) (s : OvStore) (ev : ChaosEvent) : OvStore :=
  match ev.value, ev.value_b with
  | some va, some vb =>
      let ga := nodesFor idx (some (fedLabel ev)) (some va)
      let gb := nodesFor idx (some (fedLabel ev)) (some vb)
      if ga = [] ∨ gb = [] then s
      else
        let s1 := ga.foldl (fun st a => gb.foldl (fun st2 b => link_apply st2 a b (fedFields ev)) st) s
        link_apply s1 va vb (fedFields ev)
  | _, _ => s

/-- The field list deleted by `_revert_federation_partition`. -/
def fedRevertFields : List String := ["speed_gbps", "rtt_ms", "jitter_ms", "loss_pct", "down"]

/-- `ChaosEngine._revert_federation_partition` (note it has no
empty-group guard, unlike the apply direction). -/
def revertFederationPartition (idx : LabelIndex) (s : OvStore) (ev : ChaosEvent) : OvStore :=
  match ev.value, ev.value_b with
  | some va, some vb =>
      let ga := nodesFor idx (some (fedLabel ev)) (some va)
      let gb := nodesFor idx (some (fedLabel ev)) (some vb)
      let s1 := ga.foldl (fun st a => gb.foldl (fun st2 b => link_revert st2 a b fedRevertFields) st) s
      link_revert s1 va vb fedRevertFields
  | _, _ => s

/-- `k.startswith("__revert__::")` followed by `k.split("::", 1)[1]`:
`"__revert__"` contains no colon, so in any string with this prefix the
first `"::"` sits at character 10 and the second split half is the string
with its first 12 characters dropped. -/
def stripRevert (k : String) : Option String :=
  if k.data.take 12 = "__revert__::".data then some (String.mk (k.data.drop 12)) else none

/-- `ChaosEngine._revert_for` (logging dropped).  `link_up`,
`node_recover` and `zone_recover` deliberately revert to nothing, and an
`orig` outside the three kind families does nothing. -/
def revertFor (idx : LabelIndex) (s : OvStore) (orig : String) (ev : ChaosEvent) : OvStore :=
  if orig ∈ LINK_KINDS ∧ truthyStr ev.a ∧ truthyStr ev.b then
    if orig = "link_down" then link_revert s (ev.a.getD "") (ev.b.getD "") ["down"]
    else if orig = "link_loss_spike" then link_revert s (ev.a.getD "") (ev.b.getD "") ["loss_pct"]
    else if orig = "link_degrade" then
      link_revert s (ev.a.getD "") (ev.b.getD "")
        ["speed_gbps", "rtt_ms", "jitter_ms", "loss_pct", "ecn"]
    else s
  else if orig ∈ NODE_KINDS ∧ truthyStr ev.node then
    if orig = "node_kill" then node_revert s (ev.node.getD "") ["down"]
    else if orig = "power_cap" then node_revert s (ev.node.getD "") ["power_cap_w"]
    else if orig = "thermal_derate" then node_revert s (ev.node.getD "") ["thermal_derate"]
    else if orig = "clock_skew" then node_revert s (ev.node.getD "") ["clock_skew_ms"]
    else if orig = "packet_dup" then node_revert s (ev.node.getD "") ["packet_dup"]
    else if orig = "packet_reorder" then node_revert s (ev.node.getD "") ["packet_reorder"]
    else s
  else if orig ∈ GROUP_KINDS then
    if orig = "zone_blackout" then applyZoneRecover idx s ev
    else if orig = "federation_partition" then revertFederationPartition idx s ev
    else s
  else s

/-- `ChaosEngine.apply_event` (logging dropped; all dispatch and store
mutation kept).  Falsy endpoints skip link events, a falsy node skips
node events, and an unknown kind only logs. -/
def apply_event (idx : LabelIndex) (s : OvStore) (ev : ChaosEvent) : OvStore :=
  match stripRevert ev.kind with
  | some orig => revertFor idx s orig ev
  | none =>
    if ev.kind ∈ LINK_KINDS then
      match ev.a, ev.b with
      | some a, some b =>
        if a = "" ∨ b = "" then s
        else if ev.kind = "link_down" then link_apply s a b [("down", .pybool true)]
        else if ev.kind = "link_up" then link_revert s a b ["down"]
        else if ev.kind = "link_loss_spike" then
          link_apply s a b
            (match ev.loss_pct with
              | some q => [("loss_pct", PyVal.pynum (maxQ 0 (minQ 100 q)))]
              | none => [])
        else
          link_apply s a b
            ((match ev.speed_gbps with
                | some q => [("speed_gbps", PyVal.pynum (maxQ 0 q))]
                | none => []) ++
              (match ev.rtt_ms with
                | some q => [("rtt_ms", PyVal.pynum (maxQ 0 q))]
                | none => []) ++
              (match ev.jitter_ms with
                | some q => [("jitter_ms", PyVal.pynum (maxQ 0 q))]
                | none => []) ++
              (match ev.loss_pct with
                | some q => [("loss_pct", PyVal.pynum (maxQ 0 (minQ 100 q)))]
                | none => []) ++
              (match ev.ecn with
                | some bv => [("ecn", PyVal.pybool bv)]
                | none => []))
      | _, _ => s
    else if ev.kind ∈ NODE_KINDS then
      match ev.node with
      | some n =>
        if n = "" then s
        else if ev.kind = "node_kill" then node_apply s n [("down", .pybool true)]
        else if ev.kind = "node_recover" then node_revert s n ["down"]
        else if ev.kind = "power_cap" then
          node_apply s n [("power_cap_w", PyVal.pynum (maxQ 0 (ev.power_cap_w.getD 0)))]
        else if ev.kind = "thermal_derate" then
          node_apply s n
            [("thermal_derate", PyVal.pynum (clampQ (ev.thermal_derate.getD (2/10)) 0 1))]
        else if ev.kind = "clock_skew" then
          node_apply s n [("clock_skew_ms", PyVal.pynum (ev.skew_ms.getD 50))]
        else if ev.kind = "packet_dup" then
          node_apply s n [("packet_dup", PyVal.pynum (clampQ (ev.packet_dup.getD (1/10)) 0 1))]
        else
          node_apply s n
            [("packet_reorder", PyVal.pynum (clampQ (ev.packet_reorder.getD (1/10)) 0 1))]
      | none => s
    else if ev.kind ∈ GROUP_KINDS then
      if ev.kind = "zone_blackout" then applyZoneBlackout idx s ev
      else if ev.kind = "zone_recover" then applyZoneRecover idx s ev
      else applyFederationPartition idx s ev
    else s

/-- Setting an absent key appends the binding. -/
theorem aset_of_aget_none {α : Type} (d : List (String × α)) (k : String) (v : α)
    (h : aget d k = none) : aset d k v = d ++ [(k, v)] := by
  induction d with
  | nil => rfl
  | cons hd tl ih =>
    obtain ⟨k', v'⟩ := hd
    unfold aget at h
    by_cases hk : k' = k
    · rw [if_pos hk] at h
      exact absurd h (by simp)
    · rw [if_neg hk] at h
      unfold aset
      rw [if_neg hk, ih h]
      rfl

/-- Popping a key found only in the appended singleton removes exactly
that binding. -/
theorem apop_append_single {α : Type} (d : List (String × α)) (k : String) (v : α)
    (h : aget d k = none) : apop (d ++ [(k, v)]) k = d := by
  induction d with
  | nil => simp [apop]
  | cons hd tl ih =>
    obtain ⟨k', v'⟩ := hd
    unfold aget at h
    by_cases hk : k' = k
    · rw [if_pos hk] at h
      exact absurd h (by simp)
    · rw [if_neg hk] at h
      show apop ((k', v') :: (tl ++ [(k, v)])) k = (k', v') :: tl
      unfold apop
      rw [if_neg hk, ih h]

/-- Writing back the value a key already holds is the identity. -/
theorem aset_of_aget_some {α : Type} (d : List (String × α)) (k : String) (e : α)
    (h : aget d k = some e) : aset d k e = d := by
  induction d with
  | nil => simp [aget] at h
  | cons hd tl ih =>
    obtain ⟨k', v'⟩ := hd
    unfold aget at h
    unfold aset
    by_cases hk : k' = k
    · rw [if_pos hk] at h
      rw [if_pos hk, hk]
      injection h with h
      rw [h]
    · rw [if_neg hk] at h
      rw [if_neg hk, ih h]

/-- The second write to a key wins. -/
theorem aset_aset {α : Type} (d : List (String × α)) (k : String) (v w : α) :
    aset (aset d k v) k w = aset d k w := by
  induction d with
  | nil => simp [aset]
  | cons hd tl ih =>
    obtain ⟨k', v'⟩ := hd
    by_cases hk : k' = k
    · simp [aset, hk]
    · simp [aset, hk, ih]

/-- `*_apply` on an absent entry installs exactly the changes dict. -/
theorem storeApply_single_none (m : List (String × Dyn)) (k f : String) (v : PyVal)
    (h : aget m k = none) :
    storeApply m k [(f, v)] = aset m k [(f, v)] := by
  unfold storeApply dictUpdate
  rw [h]
  rfl

/-- Applying a single fresh field and then reverting exactly that field
restores the two-level map: the entry is removed again if the apply
created it, and is put back to its previous (nonempty) value if it
existed without the field. -/
theorem storeRevert_storeApply_single (m : List (String × Dyn)) (k f : String) (v : PyVal)
    (hpre : aget m k = none ∨ ∃ e, aget m k = some e ∧ e ≠ [] ∧ aget e f = none) :
    storeRevert (storeApply m k [(f, v)]) k [f] = m := by
  rcases hpre with h | ⟨e, he, hne, hf⟩
  · rw [storeApply_single_none m k f v h]
    unfold storeRevert
    rw [aget_aset_self]
    have h1 : List.foldl (fun d f2 => apop d f2) ((some ([(f, v)] : Dyn)).getD []) [f] = [] := by
      simp [apop]
    rw [h1, if_pos rfl, aset_of_aget_none m k _ h]
    exact apop_append_single m k _ h
  · have hsa : storeApply m k [(f, v)] = aset m k (e ++ [(f, v)]) := by
      unfold storeApply dictUpdate
      rw [he]
      show aset m k (aset e f v) = aset m k (e ++ [(f, v)])
      rw [aset_of_aget_none e f v hf]
    rw [hsa]
    unfold storeRevert
    rw [aget_aset_self]
    have h1 : List.foldl (fun d f2 => apop d f2) ((some (e ++ [(f, v)])).getD []) [f] = e := by
      show apop (e ++ [(f, v)]) f = e
      exact apop_append_single e f v hf
    rw [h1, if_neg hne, aset_aset]
    exact aset_of_aget_some m k e he

/-- `node_apply` of one fresh field followed by `node_revert` of that
field restores the overrides store. -/
theorem node_apply_revert_single (s : OvStore) (n f : String) (v : PyVal)
    (hpre : aget s.nodes n = none ∨
      ∃ e, aget s.nodes n = some e ∧ e ≠ [] ∧ aget e f = none) :
    node_revert (node_apply s n [(f, v)]) n [f] = s := by
  obtain ⟨ls, ns⟩ := s
  show OvStore.mk ls (storeRevert (storeApply ns n [(f, v)]) n [f]) = OvStore.mk ls ns
  rw [storeRevert_storeApply_single ns n f v hpre]


/-- The node event kinds whose apply direction writes a field (all of
`NODE_KINDS` except `node_recover`, whose apply is itself a revert). -/
def nodeSettingKinds : List String :=
  ["node_kill", "power_cap", "thermal_derate", "clock_skew", "packet_dup", "packet_reorder"]

/-- The single dyn field each node-setting kind writes and its revert
deletes. -/
def nodeFieldOf : String → String
  | "node_kill" => "down"
  | "power_cap" => "power_cap_w"
  | "thermal_derate" => "thermal_derate"
  | "clock_skew" => "clock_skew_ms"
  | "packet_dup" => "packet_dup"
  | _ => "packet_reorder"

/-- C9 (amended).  The compiled chaos schedule is sorted by time, every
event with positive duration and a known kind contributes a synthetic
revert marker at `at_s + duration_s` carrying kind
`"__revert__::" ++ kind`, and for the single-node field-setting kinds
(`node_kill`, `power_cap`, `thermal_derate`, `clock_skew`, `packet_dup`,
`packet_reorder`) applying the event and then its revert restores the
overrides store exactly, PROVIDED the touched field was not already
present in the node's override entry (the entry being absent or nonempty
without the field).  The revert deletes the fields the forward event set,
so when a touched field was already present before the event its old
value is lost, not restored — see `C9_counterexample`. -/
theorem C9_chaos_revert_contract (raw : List ChaosEvent) (ev : ChaosEvent)
    (idx : LabelIndex) (s : OvStore) (n : String) :
    (collectChaosEvents raw).Pairwise (fun x y => x.at_s ≤ y.at_s) ∧
    (ev ∈ raw → 0 < ev.duration_s → ev.kind ∈ knownKinds →
      revertOf ev ∈ collectChaosEvents raw ∧
      (revertOf ev).at_s = ev.at_s + ev.duration_s ∧
      (revertOf ev).kind = "__revert__::" ++ ev.kind) ∧
    (ev.kind ∈ nodeSettingKinds → ev.node = some n → n ≠ "" →
      (aget s.nodes n = none ∨
        ∃ e, aget s.nodes n = some e ∧ e ≠ [] ∧ aget e (nodeFieldOf ev.kind) = none) →
      apply_event idx (apply_event idx s ev) (revertOf ev) = s) := by
  refine ⟨?_, ?_, ?_⟩
  · have htrans : ∀ a b c : ChaosEvent,
        decide (a.at_s ≤ b.at_s) = true → decide (b.at_s ≤ c.at_s) = true →
        decide (a.at_s ≤ c.at_s) = true := by
      intro a b c hab hbc
      simp only [decide_eq_true_eq] at hab hbc ⊢
      exact le_trans hab hbc
    have htot : ∀ a b : ChaosEvent,
        (decide (a.at_s ≤ b.at_s) || decide (b.at_s ≤ a.at_s)) = true := by
      intro a b
      simpa using le_total a.at_s b.at_s
    have h : ((raw.flatMap fun e =>
          e :: (if 0 < e.duration_s ∧ e.kind ∈ knownKinds then [revertOf e] else [])).mergeSort
            (fun x y => decide (x.at_s ≤ y.at_s))).Pairwise
          (fun a b => decide (a.at_s ≤ b.at_s) = true) :=
      List.sorted_mergeSort htrans htot _
    exact h.imp (fun hh => of_decide_eq_true hh)
  · intro hmem hdur hkind
    refine ⟨?_, rfl, rfl⟩
    unfold collectChaosEvents
    rw [List.mem_mergeSort, List.mem_flatMap]
    refine ⟨ev, hmem, ?_⟩
    rw [if_pos ⟨hdur, hkind⟩]
    exact List.mem_cons_of_mem _ (List.mem_singleton_self _)
  · intro hk h2 h3 hpre
    simp only [nodeSettingKinds, List.mem_cons, List.not_mem_nil, or_false] at hk
    rcases hk with hkd | hkd | hkd | hkd | hkd | hkd
    · have hfwd : apply_event idx s ev = node_apply s n [("down", PyVal.pybool true)] := by
        simp +decide [apply_event, stripRevert, hkd, h2, h3]
      have hrev : apply_event idx (node_apply s n [("down", PyVal.pybool true)]) (revertOf ev)
          = node_revert (node_apply s n [("down", PyVal.pybool true)]) n ["down"] := by
        simp +decide [apply_event, stripRevert, revertOf, revertFor, truthyStr, hkd, h2, h3]
      rw [hfwd, hrev]
      refine node_apply_revert_single s n "down" (PyVal.pybool true) ?_
      rw [hkd] at hpre
      simpa [nodeFieldOf] using hpre
    · have hfwd : apply_event idx s ev = node_apply s n [("power_cap_w", PyVal.pynum (maxQ 0 (ev.power_cap_w.getD 0)))] := by
        simp +decide [apply_event, stripRevert, hkd, h2, h3]
      have hrev : apply_event idx (node_apply s n [("power_cap_w", PyVal.pynum (maxQ 0 (ev.power_cap_w.getD 0)))]) (revertOf ev)
          = node_revert (node_apply s n [("power_cap_w", PyVal.pynum (maxQ 0 (ev.power_cap_w.getD 0)))]) n ["power_cap_w"] := by
        simp +decide [apply_event, stripRevert, revertOf, revertFor, truthyStr, hkd, h2, h3]
      rw [hfwd, hrev]
      refine node_apply_revert_single s n "power_cap_w" (PyVal.pynum (maxQ 0 (ev.power_cap_w.getD 0))) ?_
      rw [hkd] at hpre
      simpa [nodeFieldOf] using hpre
    · have hfwd : apply_event idx s ev = node_apply s n [("thermal_derate", PyVal.pynum (clampQ (ev.thermal_derate.getD (2/10)) 0 1))] := by
        simp +decide [apply_event, stripRevert, hkd, h2, h3]
      have hrev : apply_event idx (node_apply s n [("thermal_derate", PyVal.pynum (clampQ (ev.thermal_derate.getD (2/10)) 0 1))]) (revertOf ev)
          = node_revert (node_apply s n [("thermal_derate", PyVal.pynum (clampQ (ev.thermal_derate.getD (2/10)) 0 1))]) n ["thermal_derate"] := by
        simp +decide [apply_event, stripRevert, revertOf, revertFor, truthyStr, hkd, h2, h3]
      rw [hfwd, hrev]
      refine node_apply_revert_single s n "thermal_derate" (PyVal.pynum (clampQ (ev.thermal_derate.getD (2/10)) 0 1)) ?_
      rw [hkd] at hpre
      simpa [nodeFieldOf] using hpre
    · have hfwd : apply_event idx s ev = node_apply s n [("clock_skew_ms", PyVal.pynum (ev.skew_ms.getD 50))] := by
        simp +decide [apply_event, stripRevert, hkd, h2, h3]
      have hrev : apply_event idx (node_apply s n [("clock_skew_ms", PyVal.pynum (ev.skew_ms.getD 50))]) (revertOf ev)
          = node_revert (node_apply s n [("clock_skew_ms", PyVal.pynum (ev.skew_ms.getD 50))]) n ["clock_skew_ms"] := by
        simp +decide [apply_event, stripRevert, revertOf, revertFor, truthyStr, hkd, h2, h3]
      rw [hfwd, hrev]
      refine node_apply_revert_single s n "clock_skew_ms" (PyVal.pynum (ev.skew_ms.getD 50)) ?_
      rw [hkd] at hpre
      simpa [nodeFieldOf] using hpre
    · have hfwd : apply_event idx s ev = node_apply s n [("packet_dup", PyVal.pynum (clampQ (ev.packet_dup.getD (1/10)) 0 1))] := by
        simp +decide [apply_event, stripRevert, hkd, h2, h3]
      have hrev : apply_event idx (node_apply s n [("packet_dup", PyVal.pynum (clampQ (ev.packet_dup.getD (1/10)) 0 1))]) (revertOf ev)
          = node_revert (node_apply s n [("packet_dup", PyVal.pynum (clampQ (ev.packet_dup.getD (1/10)) 0 1))]) n ["packet_dup"] := by
        simp +decide [apply_event, stripRevert, revertOf, revertFor, truthyStr, hkd, h2, h3]
      rw [hfwd, hrev]
      refine node_apply_revert_single s n "packet_dup" (PyVal.pynum (clampQ (ev.packet_dup.getD (1/10)) 0 1)) ?_
      rw [hkd] at hpre
      simpa [nodeFieldOf] using hpre
    · have hfwd : apply_event idx s ev = node_apply s n [("packet_reorder", PyVal.pynum (clampQ (ev.packet_reorder.getD (1/10)) 0 1))] := by
        simp +decide [apply_event, stripRevert, hkd, h2, h3]
      have hrev : apply_event idx (node_apply s n [("packet_reorder", PyVal.pynum (clampQ (ev.packet_reorder.getD (1/10)) 0 1))]) (revertOf ev)
          = node_revert (node_apply s n [("packet_reorder", PyVal.pynum (clampQ (ev.packet_reorder.getD (1/10)) 0 1))]) n ["packet_reorder"] := by
        simp +decide [apply_event, stripRevert, revertOf, revertFor, truthyStr, hkd, h2, h3]
      rw [hfwd, hrev]
      refine node_apply_revert_single s n "packet_reorder" (PyVal.pynum (clampQ (ev.packet_reorder.getD (1/10)) 0 1)) ?_
      rw [hkd] at hpre
      simpa [nodeFieldOf] using hpre


/-- An empty label index (no node descriptor files). -/
def c9idx : LabelIndex := fun _ _ => []

/-- A bounded thermal derate on `n1`. -/
def c9ev : ChaosEvent :=
  { at_s := 10, kind := "thermal_derate", duration_s := 5,
    node := some "n1", thermal_derate := some 1 }

/-- An overrides store that already derates `n1`. -/
def c9store : OvStore :=
  { links := [], nodes := [("n1", [("thermal_derate", PyVal.pynum 7)])] }

/-- C9 counterexample: a bounded `thermal_derate` event on a node whose
override entry already carries a `thermal_derate` value.  The revert
deletes the field (emptying and dropping the entry) instead of restoring
the pre-event value, so apply-then-revert does not restore the pre-event
dyn subset for the affected field. -/
theorem C9_counterexample :
    0 < c9ev.duration_s ∧ c9ev.kind ∈ knownKinds ∧
    apply_event c9idx (apply_event c9idx c9store c9ev) (revertOf c9ev) ≠ c9store := by
  refine ⟨by decide, by decide, ?_⟩
  decide

def c9wIdx : LabelIndex := fun _ _ => []

def c9wEv : ChaosEvent :=
  { at_s := 1, kind := "node_kill", duration_s := 2, node := some "w1" }

def c9wStore : OvStore := { links := [], nodes := [] }

/-- Witness for C9 at a concrete one-event schedule and empty store. -/
theorem C9_witness :
    revertOf c9wEv ∈ collectChaosEvents [c9wEv] ∧
    apply_event c9wIdx (apply_event c9wIdx c9wStore c9wEv) (revertOf c9wEv) = c9wStore := by
  obtain ⟨h1, h2, h3⟩ := C9_chaos_revert_contract [c9wEv] c9wEv c9wIdx c9wStore "w1"
  exact ⟨(h2 (List.mem_singleton_self _) (by decide) (by decide)).1,
    h3 (by decide) rfl (by decide) (Or.inl rfl)⟩

end Fabric
